import Mathlib

/-!
# Formal model of the HAPLite-API telemetry core

Shallow embedding of the subscription multiplexer, device gateway retry
policy, bandwidth cache and device control operations of the HAPLite-API
repository (`src/services/mikrotikService.js`, `src/services/websocketManager.js`,
`src/routes/mikrotik.js`), together with theorems settling the specification
claims about them.

Conventions used throughout:
* JavaScript `Map`s are modelled as association lists with set/delete by key.
* `setInterval`/`clearInterval` timers are modelled as explicitly allocated
  handles tagged with the owning `(socketId, feedType)` key; a handle is
  "live" while it has been allocated and not yet cleared.
* Asynchronous calls made without `await` (the immediate `sendBandwidthData`
  in `handleBandwidthSubscription`) run on a later event-loop turn; they are
  modelled as explicitly scheduled tasks, separate from the synchronous part
  of the handler that schedules them.
* Fallible upstream fetches are modelled as `Except` values supplied as
  parameters (the device itself is outside the repository).
-/

namespace HAPLite

/-! ## DeviceGateway session and retry policy
    (`connect` / `retryOperation`, src/services/mikrotikService.js lines 20-70) -/

/-- Connection-relevant state of `MikrotikService`: the current session
(`this.conn`, `none` = null / not connected), a counter supplying fresh
session identities, and whether host/user/password are configured. -/
structure MtConnState where
  conn : Option Nat
  nextSession : Nat
  configOk : Bool
deriving Repr, DecidableEq

/-- `connect()`: returns the existing live session if there is one; otherwise
checks the configuration and either establishes a fresh session or fails,
leaving `conn` null. -/
def connect (s : MtConnState) : Except String Nat × MtConnState :=
  match s.conn with
  | some c => (Except.ok c, s)
  | none =>
      if s.configOk then
        (Except.ok s.nextSession,
          { s with conn := some s.nextSession, nextSession := s.nextSession + 1 })
      else
        (Except.error "Configuracion de MikroTik incompleta", { s with conn := none })

/-- Observable outcome of a `retryOperation` run: the value returned or error
re-raised (`none` only for `maxAttempts = 0`, where the JS loop body never
runs), the final connection state, how many times the operation was invoked,
and after which attempt numbers the forced discard+reconnect step ran. -/
structure RetryOutcome (α : Type) where
  result : Option (Except String α)
  state : MtConnState
  opCalls : Nat
  reconnects : List Nat
deriving Repr

/-- The `for (attempt = 1; attempt <= maxAttempts; ...)` loop of
`retryOperation`: try the operation; on failure re-raise if this was the last
attempt, otherwise sleep and — exactly when `attempt === maxAttempts - 1` —
discard the session and reconnect before continuing. `attempts` is the list
of attempt numbers remaining. -/
def retryLoop (op : Nat → Except String α) (maxAttempts : Nat) :
    List Nat → MtConnState → RetryOutcome α
  | [], s => ⟨none, s, 0, []⟩
  | attempt :: rest, s =>
      match op attempt with
      | Except.ok v => ⟨some (Except.ok v), s, 1, []⟩
      | Except.error e =>
          if attempt = maxAttempts then
            ⟨some (Except.error e), s, 1, []⟩
          else
            if attempt = maxAttempts - 1 then
              match connect { s with conn := none } with
              | (Except.error ce, s1) => ⟨some (Except.error ce), s1, 1, [attempt]⟩
              | (Except.ok _, s1) =>
                  let r := retryLoop op maxAttempts rest s1
                  ⟨r.result, r.state, r.opCalls + 1, attempt :: r.reconnects⟩
            else
              let r := retryLoop op maxAttempts rest s
              ⟨r.result, r.state, r.opCalls + 1, r.reconnects⟩

/-- `retryOperation(operation, maxAttempts = 3, delay = 1000)`; the fixed sleep
has no observable effect in this model and is omitted. -/
def retryOperation (op : Nat → Except String α) (maxAttempts : Nat)
    (s : MtConnState) : RetryOutcome α :=
  retryLoop op maxAttempts (List.range' 1 maxAttempts) s

/-- C2: with `maxAttempts = 3`, an operation failing on the first two calls and
succeeding on the third returns the success, is called three times, and the
session is discarded and reconnected exactly once — after the second failure
(attempt 2) and hence before the third attempt, consuming exactly one fresh
session identity; an operation failing on all three calls is called exactly
three times, reconnects once at the same point, and the last error is
re-raised. -/
theorem c2_retry_reconnect_policy (op fop : Nat → Except String Nat)
    (s : MtConnState) (e1 e2 f1 f2 f3 : String) (v : Nat)
    (hcfg : s.configOk = true)
    (h1 : op 1 = Except.error e1) (h2 : op 2 = Except.error e2)
    (h3 : op 3 = Except.ok v)
    (g1 : fop 1 = Except.error f1) (g2 : fop 2 = Except.error f2)
    (g3 : fop 3 = Except.error f3) :
    (retryOperation op 3 s).result = some (Except.ok v) ∧
    (retryOperation op 3 s).opCalls = 3 ∧
    (retryOperation op 3 s).reconnects = [2] ∧
    (retryOperation op 3 s).state.nextSession = s.nextSession + 1 ∧
    (retryOperation fop 3 s).result = some (Except.error f3) ∧
    (retryOperation fop 3 s).opCalls = 3 ∧
    (retryOperation fop 3 s).reconnects = [2] := by
  have hrange : List.range' 1 3 = [1, 2, 3] := by decide
  simp only [retryOperation, hrange, retryLoop, h1, h2, h3, g1, g2, g3, connect, hcfg,
    if_true, if_false]
  norm_num

/-- Concrete instance of `c2_retry_reconnect_policy`: an operation succeeding
only on its third call, and one that always fails, both run against a
connected, configured gateway. -/
theorem c2_retry_reconnect_policy_witness :
    (retryOperation (fun n => if n = 3 then Except.ok 7 else Except.error "x") 3
        ⟨some 0, 1, true⟩).result = some (Except.ok 7) ∧
    (retryOperation (fun n => if n = 3 then Except.ok 7 else Except.error "x") 3
        ⟨some 0, 1, true⟩).opCalls = 3 ∧
    (retryOperation (fun n => if n = 3 then Except.ok 7 else Except.error "x") 3
        ⟨some 0, 1, true⟩).reconnects = [2] ∧
    (retryOperation (fun n => if n = 3 then Except.ok 7 else Except.error "x") 3
        ⟨some 0, 1, true⟩).state.nextSession = 1 + 1 ∧
    (retryOperation (fun _ => (Except.error "y" : Except String Nat)) 3 ⟨some 0, 1, true⟩).result
      = some (Except.error "y") ∧
    (retryOperation (fun _ => (Except.error "y" : Except String Nat)) 3 ⟨some 0, 1, true⟩).opCalls = 3 ∧
    (retryOperation (fun _ => (Except.error "y" : Except String Nat)) 3 ⟨some 0, 1, true⟩).reconnects = [2] :=
  c2_retry_reconnect_policy
    (fun n => if n = 3 then Except.ok 7 else Except.error "x")
    (fun _ => (Except.error "y" : Except String Nat))
    ⟨some 0, 1, true⟩ "x" "x" "y" "y" "y" 7 rfl rfl rfl rfl rfl rfl rfl

/-! ## Bandwidth cache (`getBandwidthUsage`, src/services/mikrotikService.js
    lines 207-298)

The per-interface row assembly (`/interface/print` filtering plus
`/interface/monitor-traffic` per interface) happens upstream of the cache
logic; the rows it produces on a given call are supplied as the `upstream`
parameter, and each element of the list stands for one assembled
interface-data record. -/

/-- `this.cacheTimeout = 1000` (milliseconds). -/
def cacheTimeout : Nat := 1000

/-- Cache-relevant state of `MikrotikService`: `bandwidthCache` (null or the
last non-empty result), `lastCacheTime`, and the bounded history. -/
structure MtCacheState where
  bandwidthCache : Option (List String)
  lastCacheTime : Nat
  bandwidthHistory : List String
deriving Repr, DecidableEq

/-- Constructor state: no cache, `lastCacheTime = 0`, empty history. -/
def initCache : MtCacheState := ⟨none, 0, []⟩

/-- `this.bandwidthHistory.push(...bandwidthData)` followed by
`slice(-300)` when the length exceeds 300. -/
def pushHistory (hist data : List String) : List String :=
  let h := hist ++ data
  if h.length > 300 then h.drop (h.length - 300) else h

/-- The fetch path of `getBandwidthUsage` (after a cache miss): return the
assembled rows, and — only when they are non-empty — append them to the
history and store them in the cache stamped with `now` (the time captured at
the start of the call). Returns (result, state, upstream queried?). -/
def fetchBandwidth (s : MtCacheState) (now : Nat) (upstream : List String) :
    List String × MtCacheState × Bool :=
  if upstream.length > 0 then
    (upstream,
      { bandwidthCache := some upstream,
        lastCacheTime := now,
        bandwidthHistory := pushHistory s.bandwidthHistory upstream }, true)
  else (upstream, s, true)

/-- `getBandwidthUsage()`: serve from the cache while
`now - lastCacheTime < cacheTimeout` and the cache is non-null; otherwise
query upstream via `fetchBandwidth`. The third component records whether the
upstream device was queried on this call. -/
def getBandwidthUsage (s : MtCacheState) (now : Nat) (upstream : List String) :
    List String × MtCacheState × Bool :=
  match s.bandwidthCache with
  | some cache =>
      if now - s.lastCacheTime < cacheTimeout then (cache, s, false)
      else fetchBandwidth s now upstream
  | none => fetchBandwidth s now upstream

/-- C4 counterexample: starting from the constructor state, a fetch whose
upstream result is empty does not populate the cache, so a second request 500
ms later — well inside the 1000 ms TTL — queries upstream again: two requests
within the TTL trigger two upstream queries, contradicting the claim that at
most one upstream query is triggered. -/
theorem c4_ttl_cache_counterexample :
    800 - 300 < cacheTimeout ∧
    (getBandwidthUsage initCache 300 []).2.2 = true ∧
    (getBandwidthUsage (getBandwidthUsage initCache 300 []).2.1 800 []).2.2 = true := by
  decide

/-- C4 amended: provided the first request misses the cache and its upstream
fetch returns non-empty data, a second request within the TTL does not query
upstream and returns the value captured by the first; any request made once
the TTL has elapsed since the capture queries upstream again, and its result
is stored with a fresh timestamp exactly when it is non-empty (an empty
result leaves cache and timestamp untouched). -/
theorem c4_ttl_cache_amended (s : MtCacheState) (t1 t2 t3 : Nat)
    (up1 up2 up3 : List String)
    (hne : up1 ≠ [])
    (hmiss : s.bandwidthCache = none ∨ cacheTimeout ≤ t1 - s.lastCacheTime)
    (hin : t2 - t1 < cacheTimeout)
    (hout : cacheTimeout ≤ t3 - t1) :
    (getBandwidthUsage s t1 up1).2.2 = true ∧
    (getBandwidthUsage (getBandwidthUsage s t1 up1).2.1 t2 up2).1 = up1 ∧
    (getBandwidthUsage (getBandwidthUsage s t1 up1).2.1 t2 up2).2.2 = false ∧
    (getBandwidthUsage (getBandwidthUsage s t1 up1).2.1 t3 up3).2.2 = true ∧
    (up3 ≠ [] →
      (getBandwidthUsage (getBandwidthUsage s t1 up1).2.1 t3 up3).2.1.lastCacheTime = t3 ∧
      (getBandwidthUsage (getBandwidthUsage s t1 up1).2.1 t3 up3).2.1.bandwidthCache
        = some up3) ∧
    (up3 = [] →
      (getBandwidthUsage (getBandwidthUsage s t1 up1).2.1 t3 up3).2.1
        = (getBandwidthUsage s t1 up1).2.1) := by
  have hlen : up1.length > 0 := List.length_pos.mpr hne
  have hfirst : (getBandwidthUsage s t1 up1).2.1
      = { bandwidthCache := some up1, lastCacheTime := t1,
          bandwidthHistory := pushHistory s.bandwidthHistory up1 } := by
    rcases hmiss with h | h
    · simp [getBandwidthUsage, h, fetchBandwidth, hlen]
    · match hc : s.bandwidthCache with
      | none => simp [getBandwidthUsage, hc, fetchBandwidth, hlen]
      | some c =>
          simp [getBandwidthUsage, hc, fetchBandwidth, hlen, Nat.not_lt.mpr h]
  have hq : (getBandwidthUsage s t1 up1).2.2 = true := by
    rcases hmiss with h | h
    · simp [getBandwidthUsage, h, fetchBandwidth]
      split <;> simp
    · match hc : s.bandwidthCache with
      | none =>
          simp [getBandwidthUsage, hc, fetchBandwidth]
          split <;> simp
      | some c =>
          simp [getBandwidthUsage, hc, fetchBandwidth, Nat.not_lt.mpr h]
          split <;> simp
  refine ⟨hq, ?_, ?_, ?_, ?_, ?_⟩ <;> rw [hfirst]
  · simp [getBandwidthUsage, hin]
  · simp [getBandwidthUsage, hin]
  · simp [getBandwidthUsage, Nat.not_lt.mpr hout, fetchBandwidth]
    split <;> simp
  · intro h3
    have hlen3 : up3.length > 0 := List.length_pos.mpr h3
    simp [getBandwidthUsage, Nat.not_lt.mpr hout, fetchBandwidth, hlen3]
  · intro h3
    subst h3
    simp [getBandwidthUsage, Nat.not_lt.mpr hout, fetchBandwidth]

/-- Concrete instance of `c4_ttl_cache_amended`: fresh cache, first request at
t=100 capturing one row, a hit at t=600, a refetch at t=1200. -/
theorem c4_ttl_cache_amended_witness :
    (getBandwidthUsage initCache 100 ["ether1"]).2.2 = true ∧
    (getBandwidthUsage (getBandwidthUsage initCache 100 ["ether1"]).2.1 600 ["wlan1"]).1
      = ["ether1"] ∧
    (getBandwidthUsage (getBandwidthUsage initCache 100 ["ether1"]).2.1 600 ["wlan1"]).2.2
      = false ∧
    (getBandwidthUsage (getBandwidthUsage initCache 100 ["ether1"]).2.1 1200 ["wlan1"]).2.2
      = true ∧
    (["wlan1"] ≠ ([] : List String) →
      (getBandwidthUsage (getBandwidthUsage initCache 100 ["ether1"]).2.1 1200
        ["wlan1"]).2.1.lastCacheTime = 1200 ∧
      (getBandwidthUsage (getBandwidthUsage initCache 100 ["ether1"]).2.1 1200
        ["wlan1"]).2.1.bandwidthCache = some ["wlan1"]) ∧
    (["wlan1"] = ([] : List String) →
      (getBandwidthUsage (getBandwidthUsage initCache 100 ["ether1"]).2.1 1200 ["wlan1"]).2.1
        = (getBandwidthUsage initCache 100 ["ether1"]).2.1) :=
  c4_ttl_cache_amended initCache 100 600 1200 ["ether1"] ["wlan1"] ["wlan1"]
    (by decide) (Or.inl rfl) (by decide) (by decide)

/-! ## Concurrent callers of `getBandwidthUsage` (single-flight, C5)

`getBandwidthUsage` is an `async` function: its cache check runs
synchronously, then it suspends at the first upstream `await`, and the
result-storing tail runs when the fetch resolves. Overlapping calls are
modelled as two callers, each advancing through a check step and a resume
step, interleaved by an explicit schedule over the shared cache state. -/

/-- Progress of one in-flight `getBandwidthUsage` call: not yet started,
suspended awaiting the upstream fetch (carrying the `now` captured at entry
and the data the fetch will deliver), or finished (carrying the returned
value and whether this call queried upstream). -/
inductive FetchPhase
  | idle
  | fetching (startedAt : Nat) (data : List String)
  | finished (result : List String) (queried : Bool)
deriving Repr, DecidableEq

/-- Shared state plus the progress of two concurrent callers and a count of
upstream queries issued. -/
structure FlightState where
  cache : MtCacheState
  callerA : FetchPhase
  callerB : FetchPhase
  upstreamCalls : Nat
deriving Repr, DecidableEq

/-- The synchronous head of `getBandwidthUsage`, up to the first upstream
`await`: a cache hit finishes immediately without querying; a miss issues the
upstream query. Returns the new phase and the number of upstream queries this
step issued. -/
def checkStep (c : MtCacheState) (now : Nat) (upstream : List String) :
    FetchPhase → FetchPhase × Nat
  | FetchPhase.idle =>
      match c.bandwidthCache with
      | some cached =>
          if now - c.lastCacheTime < cacheTimeout then
            (FetchPhase.finished cached false, 0)
          else (FetchPhase.fetching now upstream, 1)
      | none => (FetchPhase.fetching now upstream, 1)
  | ph => (ph, 0)

/-- The tail of `getBandwidthUsage` after its upstream fetch resolves:
non-empty data is appended to the history and stored in the cache stamped
with the entry-time `now`; empty data leaves the cache untouched. -/
def resumeStep (c : MtCacheState) : FetchPhase → MtCacheState × FetchPhase
  | FetchPhase.fetching startedAt data =>
      if data.length > 0 then
        ({ bandwidthCache := some data, lastCacheTime := startedAt,
           bandwidthHistory := pushHistory c.bandwidthHistory data },
         FetchPhase.finished data true)
      else (c, FetchPhase.finished data true)
  | ph => (c, ph)

/-- One scheduler event: caller A or B runs its cache check (entering at the
given time), or resumes after its fetch. -/
inductive SchedEvent
  | checkA (now : Nat)
  | checkB (now : Nat)
  | resumeA
  | resumeB
deriving Repr, DecidableEq

/-- Apply one scheduler event to the shared state. -/
def flightStep (up : List String) (s : FlightState) : SchedEvent → FlightState
  | SchedEvent.checkA now =>
      let r := checkStep s.cache now up s.callerA
      { s with callerA := r.1, upstreamCalls := s.upstreamCalls + r.2 }
  | SchedEvent.checkB now =>
      let r := checkStep s.cache now up s.callerB
      { s with callerB := r.1, upstreamCalls := s.upstreamCalls + r.2 }
  | SchedEvent.resumeA =>
      let r := resumeStep s.cache s.callerA
      { s with cache := r.1, callerA := r.2 }
  | SchedEvent.resumeB =>
      let r := resumeStep s.cache s.callerB
      { s with cache := r.1, callerB := r.2 }

/-- Run a schedule of events over the shared state. -/
def runFlight (up : List String) (s : FlightState) (evs : List SchedEvent) :
    FlightState :=
  evs.foldl (flightStep up) s

/-- The idle two-caller state over a given cache. -/
def initFlight (c : MtCacheState) : FlightState :=
  ⟨c, FetchPhase.idle, FetchPhase.idle, 0⟩

/-- C5 counterexample: the cache holds data captured at time 0; both
subscription timers tick at time 1500, just after the 1000 ms TTL has
expired, and both cache checks run before either fetch resolves. Each caller
issues its own upstream query — two upstream fetches for one feed in the same
window, contradicting the claimed single-flight guarantee that only one
upstream fetch is issued and concurrent callers await its result. -/
theorem c5_single_flight_counterexample :
    cacheTimeout ≤ 1500 - 0 ∧
    (runFlight ["e1"] (initFlight ⟨some ["e0"], 0, []⟩)
      [SchedEvent.checkA 1500, SchedEvent.checkB 1500,
       SchedEvent.resumeA, SchedEvent.resumeB]).upstreamCalls = 2 := by
  decide

/-- C5 amended: `getBandwidthUsage` has no in-flight marker. A caller whose
cache check runs before any concurrent fetch's result has been stored issues
its own upstream query — two callers checking an expired (here: never
populated) cache concurrently issue two upstream queries, one each. Sharing
happens only through the completed cache: a caller checking after another
call has stored a non-empty result within the TTL issues no query and
returns that result. -/
theorem c5_single_flight_amended (up : List String) (t t2 : Nat)
    (hne : up ≠ []) (hin : t2 - t < cacheTimeout) :
    (runFlight up (initFlight initCache)
      [SchedEvent.checkA t, SchedEvent.checkB t,
       SchedEvent.resumeA, SchedEvent.resumeB]).upstreamCalls = 2 ∧
    (runFlight up (initFlight initCache)
      [SchedEvent.checkA t, SchedEvent.resumeA, SchedEvent.checkB t2]).upstreamCalls = 1 ∧
    (runFlight up (initFlight initCache)
      [SchedEvent.checkA t, SchedEvent.resumeA, SchedEvent.checkB t2]).callerB
      = FetchPhase.finished up false := by
  have hlen : up.length > 0 := List.length_pos.mpr hne
  refine ⟨?_, ?_, ?_⟩ <;>
    simp [runFlight, initFlight, initCache, flightStep, checkStep, resumeStep,
      hlen, hin]

/-- Concrete instance of `c5_single_flight_amended`: one-row upstream data,
both ticks at t=2000, the sequential check at t=2400. -/
theorem c5_single_flight_amended_witness :
    (runFlight ["e1"] (initFlight initCache)
      [SchedEvent.checkA 2000, SchedEvent.checkB 2000,
       SchedEvent.resumeA, SchedEvent.resumeB]).upstreamCalls = 2 ∧
    (runFlight ["e1"] (initFlight initCache)
      [SchedEvent.checkA 2000, SchedEvent.resumeA,
       SchedEvent.checkB 2400]).upstreamCalls = 1 ∧
    (runFlight ["e1"] (initFlight initCache)
      [SchedEvent.checkA 2000, SchedEvent.resumeA, SchedEvent.checkB 2400]).callerB
      = FetchPhase.finished ["e1"] false :=
  c5_single_flight_amended ["e1"] 2000 2400 (by decide) (by decide)

/-! ## WebSocketManager subscription registry and timers
    (src/services/websocketManager.js) -/

/-- Note: association-list helpers modelling JavaScript `Map` operations. -/
abbrev SocketId := String

abbrev FeedType := String

/-- A registry key: `(socket.id, feed type)`, flattening the Map-of-Maps
`this.intervals : socketId → (type → intervalId)`. -/
abbrev SubKey := SocketId × FeedType

/-- `Map.prototype.get`. -/
def assocGet [DecidableEq α] : List (α × β) → α → Option β
  | [], _ => none
  | (a, b) :: rest, k => if a = k then some b else assocGet rest k

/-- `Map.prototype.set` (insert or replace the binding of `k`). -/
def assocSet [DecidableEq α] (l : List (α × β)) (k : α) (v : β) : List (α × β) :=
  (k, v) :: l.filter (fun e => e.1 ≠ k)

/-- `Map.prototype.delete`. -/
def assocDel [DecidableEq α] (l : List (α × β)) (k : α) : List (α × β) :=
  l.filter (fun e => e.1 ≠ k)

/-- `this.maxRetryAttempts = 5`. -/
def maxRetryAttempts : Nat := 5

/-- State of a `WebSocketManager` instance: the interval registry
(`this.intervals`, flattened), the set of timers created by `setInterval` and
not yet cancelled by `clearInterval` (each tagged with the key whose callback
it drives), the period each timer was created with, `this.clientSettings`
(interval and interface filter per client), the shared
`this.connectionRetryAttempts` counter, and a supply of fresh timer handles. -/
structure WSState where
  intervals : List (SubKey × Nat)
  liveTimers : List (SubKey × Nat)
  timerPeriods : List (Nat × Nat)
  clientSettings : List (SocketId × Nat × List String)
  connectionRetryAttempts : Nat
  nextTimer : Nat
deriving Repr, DecidableEq

/-- Constructor state: empty maps, counter 0. -/
def initWS : WSState := ⟨[], [], [], [], 0, 0⟩

/-- Events emitted to sockets: `bandwidth-data` (with the number of items
delivered), `users-data`, `warning` (connection warnings carrying the
attempt count), and `error` (with its `type` field). -/
inductive WSEvent
  | bandwidthData (sid : SocketId) (count : Nat)
  | usersData (sid : SocketId)
  | warningEvt (sid : SocketId) (attempt maxA : Nat)
  | errorEvt (sid : SocketId) (etype : String)
deriving Repr, DecidableEq

/-- A deferred task: the un-awaited `this.sendBandwidthData(socket, interfaces)`
call made by `handleBandwidthSubscription`, which runs on a later event-loop
turn with the interface list captured in its closure. -/
inductive Microtask
  | sendBW (sid : SocketId) (ifaces : List String)
deriving Repr, DecidableEq

/-- `clearClientInterval(socketId, type)`: if the registry holds an interval
id for the key, `clearInterval` it and delete the registry entry; otherwise
do nothing. -/
def clearClientInterval (s : WSState) (sid : SocketId) (ftype : FeedType) : WSState :=
  match assocGet s.intervals (sid, ftype) with
  | some tid =>
      { s with intervals := assocDel s.intervals (sid, ftype),
               liveTimers := s.liveTimers.filter (fun e => e.2 ≠ tid) }
  | none => s

/-- `setInterval(callback, period)`: allocate a fresh live timer for the key,
recording its period. Returns the new handle. -/
def newTimer (s : WSState) (k : SubKey) (period : Nat) : Nat × WSState :=
  (s.nextTimer,
   { s with liveTimers := (k, s.nextTimer) :: s.liveTimers,
            timerPeriods := (s.nextTimer, period) :: s.timerPeriods,
            nextTimer := s.nextTimer + 1 })

/-- `sendBandwidthData(socket, interfaces)` with the outcome of
`getBandwidthUsage` supplied as `fetch`: on non-empty data, filter by the
captured interface list (when non-empty), emit one `bandwidth-data` event and
reset the shared retry counter; on empty data emit an empty `bandwidth-data`
event; on failure either emit a `warning` and increment the shared counter
(while it is below `maxRetryAttempts`) or emit an `error` and clear this
client's bandwidth interval. -/
def sendBandwidthData (s : WSState) (sid : SocketId) (ifaces : List String)
    (fetch : Except Unit (List String)) : WSState × List WSEvent :=
  match fetch with
  | Except.ok data =>
      if data.length > 0 then
        let filteredData :=
          if ifaces.length > 0 then data.filter (fun i => ifaces.contains i) else data
        ({ s with connectionRetryAttempts := 0 },
         [WSEvent.bandwidthData sid filteredData.length])
      else (s, [WSEvent.bandwidthData sid 0])
  | Except.error _ =>
      if s.connectionRetryAttempts < maxRetryAttempts then
        ({ s with connectionRetryAttempts := s.connectionRetryAttempts + 1 },
         [WSEvent.warningEvt sid (s.connectionRetryAttempts + 1) maxRetryAttempts])
      else
        (clearClientInterval s sid "bandwidth", [WSEvent.errorEvt sid "bandwidth"])

/-- `handleBandwidthSubscription(socket, options)`: clear any existing
bandwidth interval for the client, store its settings, schedule the immediate
(un-awaited) `sendBandwidthData`, create the periodic timer and register it.
Emits nothing synchronously. -/
def handleBandwidthSubscription (s : WSState) (sid : SocketId)
    (interval : Nat) (ifaces : List String) :
    WSState × List WSEvent × List Microtask :=
  let s1 := clearClientInterval s sid "bandwidth"
  let s2 := { s1 with clientSettings := assocSet s1.clientSettings sid (interval, ifaces) }
  let r := newTimer s2 (sid, "bandwidth") interval
  ({ r.2 with intervals := assocSet r.2.intervals (sid, "bandwidth") r.1 },
   [], [Microtask.sendBW sid ifaces])

/-- `handleUsersSubscription(socket, options)`: clear any existing users
interval, create the periodic timer and register it. No settings are stored
and no immediate delivery is made or scheduled. -/
def handleUsersSubscription (s : WSState) (sid : SocketId) (interval : Nat) :
    WSState × List WSEvent × List Microtask :=
  let s1 := clearClientInterval s sid "users"
  let r := newTimer s1 (sid, "users") interval
  ({ r.2 with intervals := assocSet r.2.intervals (sid, "users") r.1 }, [], [])

/-- `updateClientInterval(socket, {type, interval})`: reject unknown types
with an `invalid-subscription` error; otherwise restart the corresponding
subscription with the new interval (bandwidth reuses the stored interface
settings, defaulting as the destructuring in `handleBandwidthSubscription`
does). -/
def updateClientInterval (s : WSState) (sid : SocketId) (dtype : String)
    (interval : Nat) : WSState × List WSEvent × List Microtask :=
  if dtype = "bandwidth" then
    let ifaces :=
      match assocGet s.clientSettings sid with
      | some p => p.2
      | none => ["ether1", "wlan1", "bridge"]
    handleBandwidthSubscription s sid interval ifaces
  else if dtype = "users" then
    handleUsersSubscription s sid interval
  else
    (s, [WSEvent.errorEvt sid "invalid-subscription"], [])

/-- `handleDisconnect(socket)`: `clearInterval` every timer registered for the
client, delete the client's registry entries and its settings. -/
def handleDisconnect (s : WSState) (sid : SocketId) : WSState :=
  let tids := (s.intervals.filter (fun e => e.1.1 = sid)).map (fun e => e.2)
  { s with
    liveTimers := s.liveTimers.filter (fun e => ¬ tids.contains e.2),
    intervals := s.intervals.filter (fun e => e.1.1 ≠ sid),
    clientSettings := assocDel s.clientSettings sid }

/-- Transport-level operations driving the manager: the three socket event
handlers, the periodic timer callbacks (which fire only while their timer is
live, carrying the closure-captured interface list and the fetch outcome of
that tick), explicit interval clearing (the unsubscribe primitive
`clearClientInterval`), and disconnect. -/
inductive WSOp
  | subBW (sid : SocketId) (interval : Nat) (ifaces : List String)
  | subUsers (sid : SocketId) (interval : Nat)
  | updInterval (sid : SocketId) (dtype : String) (interval : Nat)
  | tickBW (sid : SocketId) (ifaces : List String) (fetch : Except Unit (List String))
  | tickUsers (sid : SocketId) (ok : Bool)
  | unsub (sid : SocketId) (ftype : FeedType)
  | disconnect (sid : SocketId)
deriving Repr

/-- One step of the manager: apply an operation, returning the new state, the
events emitted to sockets, and any deferred tasks scheduled. A tick here is
the synchronous special case in which the callback's fetch settles on the
spot; `asyncStep` below splits a bandwidth callback into its firing and
its completion, which the source's `async` callback separates by an
`await`. -/
def wsStep (s : WSState) : WSOp → WSState × List WSEvent × List Microtask
  | WSOp.subBW sid i fs => handleBandwidthSubscription s sid i fs
  | WSOp.subUsers sid i => handleUsersSubscription s sid i
  | WSOp.updInterval sid t i => updateClientInterval s sid t i
  | WSOp.tickBW sid fs fetch =>
      if (assocGet s.intervals (sid, "bandwidth")).isSome then
        let r := sendBandwidthData s sid fs fetch
        (r.1, r.2, [])
      else (s, [], [])
  | WSOp.tickUsers sid ok =>
      if (assocGet s.intervals (sid, "users")).isSome then
        if ok then (s, [WSEvent.usersData sid], [])
        else (s, [WSEvent.errorEvt sid "users"], [])
      else (s, [], [])
  | WSOp.unsub sid t => (clearClientInterval s sid t, [], [])
  | WSOp.disconnect sid => (handleDisconnect s sid, [], [])

/-- Run the un-awaited `sendBandwidthData` task scheduled by a bandwidth
subscription, with the fetch outcome of that run. -/
def runMicro (s : WSState) (m : Microtask) (fetch : Except Unit (List String)) :
    WSState × List WSEvent :=
  match m with
  | Microtask.sendBW sid fs => sendBandwidthData s sid fs fetch

/-- Fold a sequence of operations over the state, discarding outputs. -/
def runOps (s : WSState) (ops : List WSOp) : WSState :=
  ops.foldl (fun st op => (wsStep st op).1) s

/-- Run a sequence of operations, accumulating the emitted events in order. -/
def runOpsEvents (s : WSState) : List WSOp → WSState × List WSEvent
  | [] => (s, [])
  | op :: rest =>
      let r := wsStep s op
      let rr := runOpsEvents r.1 rest
      (rr.1, r.2.1 ++ rr.2)

/-- Number of live timers whose callback serves the given key. -/
def timersFor (s : WSState) (k : SubKey) : Nat :=
  (s.liveTimers.filter (fun e => e.1 = k)).length

/-- Number of live timers owned by a client across all feeds. -/
def timersOwnedBy (s : WSState) (c : SocketId) : Nat :=
  (s.liveTimers.filter (fun e => e.1.1 = c)).length

/-- Well-formedness maintained by every `WebSocketManager` reachable from the
constructor: the registry and the set of live timers list exactly the same
bindings (this is the "live timers = Active entries" invariant, strengthened
to list equality), keys are bound at most once, timer handles are distinct,
and all handles are below the allocation counter. -/
def goodState (s : WSState) : Prop :=
  s.intervals = s.liveTimers ∧
  (s.intervals.map Prod.fst).Nodup ∧
  (s.intervals.map Prod.snd).Nodup ∧
  ∀ e ∈ s.intervals, e.2 < s.nextTimer

/-! ### Association-list lemmas -/

theorem assocGet_cons [DecidableEq α] (a : α) (b : β) (l : List (α × β)) (k : α) :
    assocGet ((a, b) :: l) k = if a = k then some b else assocGet l k := rfl

theorem assocGet_mem [DecidableEq α] :
    ∀ {l : List (α × β)} {k : α} {v : β}, assocGet l k = some v → (k, v) ∈ l
  | (a, b) :: rest, k, v, h => by
      by_cases hak : a = k
      · subst hak
        rw [assocGet_cons, if_pos rfl] at h
        obtain rfl := Option.some.inj h
        exact List.mem_cons_self _ _
      · rw [assocGet_cons, if_neg hak] at h
        exact List.mem_cons_of_mem _ (assocGet_mem h)

theorem assocGet_eq_none_iff [DecidableEq α] {l : List (α × β)} {k : α} :
    assocGet l k = none ↔ ∀ e ∈ l, e.1 ≠ k := by
  induction l with
  | nil => simp [assocGet]
  | cons e rest ih =>
      obtain ⟨a, b⟩ := e
      by_cases hak : a = k
      · subst hak
        simp [assocGet_cons]
      · simp [assocGet_cons, hak, ih]

theorem assocGet_filter_ne [DecidableEq α] (l : List (α × β)) (k : α) :
    assocGet (l.filter (fun e => e.1 ≠ k)) k = none := by
  rw [assocGet_eq_none_iff]
  intro e he
  simpa using List.of_mem_filter he

theorem assocGet_none_filter [DecidableEq α] {l : List (α × β)} {k : α}
    (h : assocGet l k = none) (p : α × β → Bool) :
    assocGet (l.filter p) k = none := by
  rw [assocGet_eq_none_iff] at h ⊢
  exact fun e he => h e (List.mem_of_mem_filter he)

/-! ### `clearClientInterval` lemmas -/

/-- Fields of the manager untouched by `clearClientInterval`. -/
theorem clearClientInterval_fields (s : WSState) (sid : SocketId) (ftype : FeedType) :
    (clearClientInterval s sid ftype).nextTimer = s.nextTimer ∧
    (clearClientInterval s sid ftype).timerPeriods = s.timerPeriods ∧
    (clearClientInterval s sid ftype).clientSettings = s.clientSettings ∧
    (clearClientInterval s sid ftype).connectionRetryAttempts = s.connectionRetryAttempts := by
  unfold clearClientInterval
  cases assocGet s.intervals (sid, ftype) <;> simp

/-- On a well-formed state, clearing a key removes exactly its registry entry
and exactly its timer: both components become the key-filtered registry. -/
theorem clear_live_eq (s : WSState) (hg : goodState s) (sid : SocketId) (ftype : FeedType) :
    (clearClientInterval s sid ftype).intervals
      = s.intervals.filter (fun e => e.1 ≠ (sid, ftype)) ∧
    (clearClientInterval s sid ftype).liveTimers
      = s.intervals.filter (fun e => e.1 ≠ (sid, ftype)) := by
  obtain ⟨heq, hkeys, htids, _⟩ := hg
  unfold clearClientInterval
  cases hget : assocGet s.intervals (sid, ftype) with
  | none =>
      have hall := assocGet_eq_none_iff.mp hget
      have hself : s.intervals.filter (fun e => e.1 ≠ (sid, ftype)) = s.intervals :=
        List.filter_eq_self.mpr (fun e he => by simpa using hall e he)
      exact ⟨hself.symm, heq ▸ hself.symm⟩
  | some tid =>
      have hmem : ((sid, ftype), tid) ∈ s.intervals := assocGet_mem hget
      have hpt : ∀ e ∈ s.intervals,
          (decide (e.2 ≠ tid)) = (decide (e.1 ≠ (sid, ftype))) := by
        intro e he
        have : e.2 = tid ↔ e.1 = (sid, ftype) := by
          constructor
          · intro h2
            have := List.inj_on_of_nodup_map htids he hmem (by simpa using h2)
            rw [this]
          · intro h1
            have := List.inj_on_of_nodup_map hkeys he hmem (by simpa using h1)
            rw [this]
        exact decide_eq_decide.mpr (not_congr this)
      refine ⟨rfl, ?_⟩
      show s.liveTimers.filter (fun e => e.2 ≠ tid)
        = s.intervals.filter (fun e => e.1 ≠ (sid, ftype))
      rw [← heq]
      exact List.filter_congr hpt

/-- `clearClientInterval` preserves well-formedness. -/
theorem goodState_clear (s : WSState) (hg : goodState s) (sid : SocketId)
    (ftype : FeedType) : goodState (clearClientInterval s sid ftype) := by
  obtain ⟨hi, hl⟩ := clear_live_eq s hg sid ftype
  obtain ⟨heq, hkeys, htids, hbound⟩ := hg
  have hnext := (clearClientInterval_fields s sid ftype).1
  refine ⟨hi.trans hl.symm, ?_, ?_, ?_⟩
  · rw [hi]
    exact hkeys.sublist ((List.filter_sublist _).map _)
  · rw [hi]
    exact htids.sublist ((List.filter_sublist _).map _)
  · intro e he
    rw [hi] at he
    rw [hnext]
    exact hbound e (List.mem_of_mem_filter he)

/-! ### Subscription lemmas -/

/-- State characterization of `handleBandwidthSubscription`: a fresh timer for
the key is allocated and registered on top of the cleared state, with its
period recorded; nothing is emitted and the immediate delivery is scheduled. -/
theorem handleBW_state (s : WSState) (sid : SocketId) (i : Nat) (fs : List String) :
    (handleBandwidthSubscription s sid i fs).1.intervals
      = ((sid, "bandwidth"), s.nextTimer)
          :: (clearClientInterval s sid "bandwidth").intervals.filter
               (fun e => e.1 ≠ (sid, "bandwidth")) ∧
    (handleBandwidthSubscription s sid i fs).1.liveTimers
      = ((sid, "bandwidth"), s.nextTimer)
          :: (clearClientInterval s sid "bandwidth").liveTimers ∧
    (handleBandwidthSubscription s sid i fs).1.nextTimer = s.nextTimer + 1 ∧
    (handleBandwidthSubscription s sid i fs).1.timerPeriods
      = (s.nextTimer, i) :: s.timerPeriods ∧
    (handleBandwidthSubscription s sid i fs).2.1 = [] ∧
    (handleBandwidthSubscription s sid i fs).2.2 = [Microtask.sendBW sid fs] := by
  obtain ⟨hn, hp, hc, hr⟩ := clearClientInterval_fields s sid "bandwidth"
  unfold handleBandwidthSubscription newTimer
  simp [assocSet, hn, hp]

/-- State characterization of `handleUsersSubscription`. -/
theorem handleUsers_state (s : WSState) (sid : SocketId) (i : Nat) :
    (handleUsersSubscription s sid i).1.intervals
      = ((sid, "users"), s.nextTimer)
          :: (clearClientInterval s sid "users").intervals.filter
               (fun e => e.1 ≠ (sid, "users")) ∧
    (handleUsersSubscription s sid i).1.liveTimers
      = ((sid, "users"), s.nextTimer)
          :: (clearClientInterval s sid "users").liveTimers ∧
    (handleUsersSubscription s sid i).1.nextTimer = s.nextTimer + 1 ∧
    (handleUsersSubscription s sid i).1.timerPeriods
      = (s.nextTimer, i) :: s.timerPeriods ∧
    (handleUsersSubscription s sid i).2.1 = [] ∧
    (handleUsersSubscription s sid i).2.2 = [] := by
  obtain ⟨hn, hp, hc, hr⟩ := clearClientInterval_fields s sid "users"
  unfold handleUsersSubscription newTimer
  simp [assocSet, hn, hp]

/-- On a well-formed state, a bandwidth subscription leaves a well-formed
state in which exactly one live timer serves the key. -/
theorem goodState_handleBW (s : WSState) (hg : goodState s) (sid : SocketId)
    (i : Nat) (fs : List String) :
    goodState (handleBandwidthSubscription s sid i fs).1 ∧
    timersFor (handleBandwidthSubscription s sid i fs).1 (sid, "bandwidth") = 1 := by
  obtain ⟨hint, hlive, hnext, _, _, _⟩ := handleBW_state s sid i fs
  obtain ⟨hci, hcl⟩ := clear_live_eq s hg sid "bandwidth"
  obtain ⟨heq, hkeys, htids, hbound⟩ := hg
  have hfilt : (clearClientInterval s sid "bandwidth").intervals.filter
      (fun e => e.1 ≠ (sid, "bandwidth"))
      = (clearClientInterval s sid "bandwidth").intervals := by
    rw [hci]
    exact List.filter_eq_self.mpr (fun e he => (List.mem_filter.mp he).2)
  have hint2 : (handleBandwidthSubscription s sid i fs).1.intervals
      = ((sid, "bandwidth"), s.nextTimer)
          :: (clearClientInterval s sid "bandwidth").intervals := by
    rw [hint, hfilt]
  have hkmem : ∀ e ∈ (clearClientInterval s sid "bandwidth").intervals,
      e.1 ≠ (sid, "bandwidth") := by
    intro e he
    rw [hci] at he
    simpa using (List.mem_filter.mp he).2
  have htmem : ∀ e ∈ (clearClientInterval s sid "bandwidth").intervals,
      e.2 < s.nextTimer := by
    intro e he
    rw [hci] at he
    exact hbound e (List.mem_of_mem_filter he)
  constructor
  · refine ⟨?_, ?_, ?_, ?_⟩
    · rw [hint2, hlive, hci, hcl]
    · rw [hint2]
      refine List.Nodup.cons ?_ ?_
      · intro hmem
        rw [List.mem_map] at hmem
        obtain ⟨e, he, hfst⟩ := hmem
        exact hkmem e he hfst
      · rw [hci]
        exact hkeys.sublist ((List.filter_sublist _).map _)
    · rw [hint2]
      refine List.Nodup.cons ?_ ?_
      · intro hmem
        rw [List.mem_map] at hmem
        obtain ⟨e, he, hsnd⟩ := hmem
        exact absurd (hsnd ▸ htmem e he) (lt_irrefl _)
      · rw [hci]
        exact htids.sublist ((List.filter_sublist _).map _)
    · intro e he
      rw [hint2] at he
      rw [hnext]
      rcases List.mem_cons.mp he with rfl | he
      · exact Nat.lt_succ_self _
      · exact Nat.lt_succ_of_lt (htmem e he)
  · unfold timersFor
    rw [hlive, hcl]
    have hnil : (s.intervals.filter (fun e => e.1 ≠ (sid, "bandwidth"))).filter
        (fun e => e.1 = (sid, "bandwidth")) = [] := by
      refine List.eq_nil_iff_forall_not_mem.mpr (fun e he => ?_)
      obtain ⟨hin, hp⟩ := List.mem_filter.mp he
      obtain ⟨_, hq⟩ := List.mem_filter.mp hin
      simp at hp hq
      exact hq hp
    rw [List.filter_cons]
    simp [hnil]

/-- On a well-formed state, a users subscription leaves a well-formed state
in which exactly one live timer serves the key. -/
theorem goodState_handleUsers (s : WSState) (hg : goodState s) (sid : SocketId)
    (i : Nat) :
    goodState (handleUsersSubscription s sid i).1 ∧
    timersFor (handleUsersSubscription s sid i).1 (sid, "users") = 1 := by
  obtain ⟨hint, hlive, hnext, _, _, _⟩ := handleUsers_state s sid i
  obtain ⟨hci, hcl⟩ := clear_live_eq s hg sid "users"
  obtain ⟨heq, hkeys, htids, hbound⟩ := hg
  have hfilt : (clearClientInterval s sid "users").intervals.filter
      (fun e => e.1 ≠ (sid, "users"))
      = (clearClientInterval s sid "users").intervals := by
    rw [hci]
    exact List.filter_eq_self.mpr (fun e he => (List.mem_filter.mp he).2)
  have hint2 : (handleUsersSubscription s sid i).1.intervals
      = ((sid, "users"), s.nextTimer)
          :: (clearClientInterval s sid "users").intervals := by
    rw [hint, hfilt]
  have hkmem : ∀ e ∈ (clearClientInterval s sid "users").intervals,
      e.1 ≠ (sid, "users") := by
    intro e he
    rw [hci] at he
    simpa using (List.mem_filter.mp he).2
  have htmem : ∀ e ∈ (clearClientInterval s sid "users").intervals,
      e.2 < s.nextTimer := by
    intro e he
    rw [hci] at he
    exact hbound e (List.mem_of_mem_filter he)
  constructor
  · refine ⟨?_, ?_, ?_, ?_⟩
    · rw [hint2, hlive, hci, hcl]
    · rw [hint2]
      refine List.Nodup.cons ?_ ?_
      · intro hmem
        rw [List.mem_map] at hmem
        obtain ⟨e, he, hfst⟩ := hmem
        exact hkmem e he hfst
      · rw [hci]
        exact hkeys.sublist ((List.filter_sublist _).map _)
    · rw [hint2]
      refine List.Nodup.cons ?_ ?_
      · intro hmem
        rw [List.mem_map] at hmem
        obtain ⟨e, he, hsnd⟩ := hmem
        exact absurd (hsnd ▸ htmem e he) (lt_irrefl _)
      · rw [hci]
        exact htids.sublist ((List.filter_sublist _).map _)
    · intro e he
      rw [hint2] at he
      rw [hnext]
      rcases List.mem_cons.mp he with rfl | he
      · exact Nat.lt_succ_self _
      · exact Nat.lt_succ_of_lt (htmem e he)
  · unfold timersFor
    rw [hlive, hcl]
    have hnil : (s.intervals.filter (fun e => e.1 ≠ (sid, "users"))).filter
        (fun e => e.1 = (sid, "users")) = [] := by
      refine List.eq_nil_iff_forall_not_mem.mpr (fun e he => ?_)
      obtain ⟨hin, hp⟩ := List.mem_filter.mp he
      obtain ⟨_, hq⟩ := List.mem_filter.mp hin
      simp at hp hq
      exact hq hp
    rw [List.filter_cons]
    simp [hnil]

/-- After clearing, no live timer serves the key. -/
theorem timersFor_clear (s : WSState) (hg : goodState s) (sid : SocketId)
    (ftype : FeedType) :
    timersFor (clearClientInterval s sid ftype) (sid, ftype) = 0 := by
  obtain ⟨_, hcl⟩ := clear_live_eq s hg sid ftype
  unfold timersFor
  rw [hcl]
  refine List.length_eq_zero.mpr (List.eq_nil_iff_forall_not_mem.mpr (fun e he => ?_))
  obtain ⟨hin, hp⟩ := List.mem_filter.mp he
  obtain ⟨_, hq⟩ := List.mem_filter.mp hin
  simp at hp hq
  exact hq hp

/-! ### Disconnect lemmas -/

theorem assocGet_del_ne [DecidableEq α] (l : List (α × β)) {k k' : α} (h : k' ≠ k) :
    assocGet (assocDel l k) k' = assocGet l k' := by
  unfold assocDel
  induction l with
  | nil => rfl
  | cons e rest ih =>
      obtain ⟨a, b⟩ := e
      simp only [decide_not] at ih
      rw [List.filter_cons]
      by_cases hak : a = k
      · subst hak
        have hak' : ¬ a = k' := fun hh => h hh.symm
        simp [assocGet_cons, hak', ih]
      · simp [assocGet_cons, hak, ih]

/-- On a well-formed state, `handleDisconnect` removes exactly the client's
entries from both the registry and the live-timer set. -/
theorem handleDisconnect_live (s : WSState) (hg : goodState s) (sid : SocketId) :
    (handleDisconnect s sid).intervals
      = s.intervals.filter (fun e => e.1.1 ≠ sid) ∧
    (handleDisconnect s sid).liveTimers
      = s.intervals.filter (fun e => e.1.1 ≠ sid) := by
  obtain ⟨heq, hkeys, htids, _⟩ := hg
  refine ⟨rfl, ?_⟩
  show s.liveTimers.filter
      (fun e => ¬ ((s.intervals.filter (fun e => e.1.1 = sid)).map
        (fun e => e.2)).contains e.2)
    = s.intervals.filter (fun e => e.1.1 ≠ sid)
  rw [← heq]
  refine List.filter_congr (fun e he => ?_)
  have hiff : e.2 ∈ (s.intervals.filter (fun e => e.1.1 = sid)).map (fun e => e.2)
      ↔ e.1.1 = sid := by
    constructor
    · intro hmem
      rw [List.mem_map] at hmem
      obtain ⟨x, hx, hx2⟩ := hmem
      have hxi : x ∈ s.intervals := List.mem_of_mem_filter hx
      have hxe : x = e := List.inj_on_of_nodup_map htids hxi he (by simpa using hx2)
      have := (List.mem_filter.mp hx).2
      rw [← hxe]
      simpa using this
    · intro hsid
      exact List.mem_map.mpr ⟨e, List.mem_filter.mpr ⟨he, by simpa using hsid⟩, rfl⟩
  have hc : (((s.intervals.filter (fun e => e.1.1 = sid)).map
      (fun e => e.2)).contains e.2 = true) ↔ e.1.1 = sid := by
    rw [List.contains_iff_exists_mem_beq]
    constructor
    · intro hex
      obtain ⟨x, hx, hbeq⟩ := hex
      exact hiff.mp ((Nat.beq_eq.mp (by simpa using hbeq) : e.2 = x) ▸ hx)
    · intro hsid
      exact ⟨e.2, hiff.mpr hsid, by simp⟩
  exact decide_eq_decide.mpr (by rw [hc])

/-- `handleDisconnect` preserves well-formedness. -/
theorem goodState_disconnect (s : WSState) (hg : goodState s) (sid : SocketId) :
    goodState (handleDisconnect s sid) := by
  obtain ⟨hi, hl⟩ := handleDisconnect_live s hg sid
  obtain ⟨heq, hkeys, htids, hbound⟩ := hg
  refine ⟨hi.trans hl.symm, ?_, ?_, ?_⟩
  · rw [hi]
    exact hkeys.sublist ((List.filter_sublist _).map _)
  · rw [hi]
    exact htids.sublist ((List.filter_sublist _).map _)
  · intro e he
    rw [hi] at he
    show e.2 < s.nextTimer
    exact hbound e (List.mem_of_mem_filter he)

/-! ### Step preservation, the C1 and C7 theorems -/

/-- Every operation preserves well-formedness of the manager state. -/
theorem goodState_wsStep (s : WSState) (hg : goodState s) (op : WSOp) :
    goodState (wsStep s op).1 := by
  cases op with
  | subBW sid i fs => exact (goodState_handleBW s hg sid i fs).1
  | subUsers sid i => exact (goodState_handleUsers s hg sid i).1
  | updInterval sid t i =>
      show goodState (updateClientInterval s sid t i).1
      unfold updateClientInterval
      by_cases h1 : t = "bandwidth"
      · simp only [h1, if_true]
        exact (goodState_handleBW s hg sid i _).1
      · by_cases h2 : t = "users"
        · simp only [h1, h2, if_false, if_true]
          exact (goodState_handleUsers s hg sid i).1
        · simp only [h1, h2, if_false]
          exact hg
  | tickBW sid fs fetch =>
      show goodState (wsStep s (WSOp.tickBW sid fs fetch)).1
      unfold wsStep
      by_cases hguard : (assocGet s.intervals (sid, "bandwidth")).isSome
      · simp only [hguard, if_true]
        unfold sendBandwidthData
        cases fetch with
        | ok data =>
            by_cases hd : data.length > 0
            · simp only [hd, if_true]
              exact hg
            · simp only [hd, if_false]
              exact hg
        | error e =>
            by_cases hcnt : s.connectionRetryAttempts < maxRetryAttempts
            · simp only [hcnt, if_true]
              exact hg
            · simp only [hcnt, if_false]
              exact goodState_clear s hg sid "bandwidth"
      · simp only [hguard, if_false]
        exact hg
  | tickUsers sid ok =>
      show goodState (wsStep s (WSOp.tickUsers sid ok)).1
      unfold wsStep
      by_cases hguard : (assocGet s.intervals (sid, "users")).isSome
      · cases ok <;> simp only [hguard, if_true, if_false] <;> exact hg
      · simp only [hguard, if_false]
        exact hg
  | unsub sid t => exact goodState_clear s hg sid t
  | disconnect sid => exact goodState_disconnect s hg sid

/-- Well-formedness is preserved along any operation sequence. -/
theorem goodState_runOps (s : WSState) (hg : goodState s) (ops : List WSOp) :
    goodState (runOps s ops) := by
  induction ops generalizing s with
  | nil => exact hg
  | cons op rest ih => exact ih _ (goodState_wsStep s hg op)

/-- The operation addresses the given key as a subscribe or unsubscribe. -/
def opOnKey (k : SubKey) : WSOp → Prop
  | WSOp.subBW sid _ _ => (sid, ("bandwidth" : FeedType)) = k
  | WSOp.subUsers sid _ => (sid, ("users" : FeedType)) = k
  | WSOp.unsub sid t => (sid, t) = k
  | _ => False

/-- Whether the operation is a subscribe. -/
def isSubscribeOp : WSOp → Bool
  | WSOp.subBW _ _ _ => true
  | WSOp.subUsers _ _ => true
  | _ => false

/-- On a well-formed state, one subscribe/unsubscribe on a key leaves exactly
one (respectively zero) live timers for it, whatever held before. -/
theorem timersFor_lastOp (s : WSState) (hg : goodState s) (k : SubKey) (op : WSOp)
    (hk : opOnKey k op) :
    timersFor (wsStep s op).1 k = if isSubscribeOp op then 1 else 0 := by
  cases op with
  | subBW sid i fs =>
      obtain rfl : (sid, ("bandwidth" : FeedType)) = k := hk
      simpa [isSubscribeOp] using (goodState_handleBW s hg sid i fs).2
  | subUsers sid i =>
      obtain rfl : (sid, ("users" : FeedType)) = k := hk
      simpa [isSubscribeOp] using (goodState_handleUsers s hg sid i).2
  | unsub sid t =>
      obtain rfl : (sid, t) = k := hk
      simpa [isSubscribeOp] using timersFor_clear s hg sid t
  | updInterval sid t i => exact hk.elim
  | tickBW sid fs fetch => exact hk.elim
  | tickUsers sid ok => exact hk.elim
  | disconnect sid => exact hk.elim

/-- C1: on any well-formed manager state, (i) every operation preserves
well-formedness and in particular leaves the number of live timers equal to
the number of registry entries ("live timers = Active entries", globally,
after every step); (ii) for any finite sequence of subscribe/unsubscribe
operations on one `(clientId, feedKind)` key, the number of live timers for
that key afterwards is 1 when the last operation was a subscribe and 0
otherwise — in particular a subscribe immediately followed by a second
subscribe on the same key leaves exactly one live timer, the old one having
been cancelled before the new one was created. -/
theorem c1_timer_entry_invariant (s : WSState) (hg : goodState s) :
    (∀ op : WSOp,
       goodState (wsStep s op).1 ∧
       (wsStep s op).1.liveTimers.length = (wsStep s op).1.intervals.length) ∧
    (∀ (k : SubKey) (pre : List WSOp) (lastOp : WSOp),
       (∀ op ∈ pre, opOnKey k op) → opOnKey k lastOp →
       timersFor (runOps s (pre ++ [lastOp])) k
         = if isSubscribeOp lastOp then 1 else 0) := by
  constructor
  · intro op
    have h := goodState_wsStep s hg op
    exact ⟨h, by rw [h.1]⟩
  · intro k pre lastOp _ hlast
    have hrun : runOps s (pre ++ [lastOp]) = (wsStep (runOps s pre) lastOp).1 := by
      unfold runOps
      rw [List.foldl_append]
      rfl
    rw [hrun]
    exact timersFor_lastOp (runOps s pre) (goodState_runOps s hg pre) k lastOp hlast

/-- Concrete instance of `c1_timer_entry_invariant`: a double subscribe on the
same key (the second replacing the first) ends with exactly one live timer,
and the step invariant holds at the initial state. -/
theorem c1_timer_entry_invariant_witness :
    goodState (wsStep initWS (WSOp.subBW "a" 2000 ["ether1"])).1 ∧
    (wsStep initWS (WSOp.subBW "a" 2000 ["ether1"])).1.liveTimers.length
      = (wsStep initWS (WSOp.subBW "a" 2000 ["ether1"])).1.intervals.length ∧
    timersFor (runOps initWS ([WSOp.subBW "a" 2000 ["ether1"]]
        ++ [WSOp.subBW "a" 1000 []])) ("a", "bandwidth") = 1 := by
  have hg : goodState initWS := by
    refine ⟨rfl, ?_, ?_, ?_⟩ <;> simp [initWS]
  have h := c1_timer_entry_invariant initWS hg
  refine ⟨(h.1 (WSOp.subBW "a" 2000 ["ether1"])).1,
          (h.1 (WSOp.subBW "a" 2000 ["ether1"])).2, ?_⟩
  have h2 := h.2 ("a", "bandwidth") [WSOp.subBW "a" 2000 ["ether1"]]
      (WSOp.subBW "a" 1000 [])
      (by intro op hop
          simp at hop
          subst hop
          simp [opOnKey])
      (by simp [opOnKey])
  simpa [isSubscribeOp] using h2

/-- C7: on any well-formed manager state, the disconnect handler leaves zero
live timers owned by the disconnecting client — however many feeds were
active — emits nothing, and leaves every other client's registry entries,
live timers and settings untouched; when the client owns no registry entry
and no settings, the handler is a complete no-op (and, being total, it raises
nothing). -/
theorem c7_disconnect_cleanup (s : WSState) (c : SocketId) (hg : goodState s) :
    timersOwnedBy (wsStep s (WSOp.disconnect c)).1 c = 0 ∧
    (wsStep s (WSOp.disconnect c)).2.1 = [] ∧
    (∀ c', c' ≠ c →
       (wsStep s (WSOp.disconnect c)).1.liveTimers.filter (fun e => e.1.1 = c')
         = s.liveTimers.filter (fun e => e.1.1 = c') ∧
       (wsStep s (WSOp.disconnect c)).1.intervals.filter (fun e => e.1.1 = c')
         = s.intervals.filter (fun e => e.1.1 = c') ∧
       assocGet (wsStep s (WSOp.disconnect c)).1.clientSettings c'
         = assocGet s.clientSettings c') ∧
    (s.intervals.filter (fun e => e.1.1 = c) = [] →
     assocGet s.clientSettings c = none →
     (wsStep s (WSOp.disconnect c)).1 = s) := by
  obtain ⟨hi, hl⟩ := handleDisconnect_live s hg c
  obtain ⟨heq, hkeys, htids, hbound⟩ := hg
  refine ⟨?_, rfl, ?_, ?_⟩
  · unfold timersOwnedBy
    show ((handleDisconnect s c).liveTimers.filter (fun e => e.1.1 = c)).length = 0
    rw [hl]
    refine List.length_eq_zero.mpr (List.eq_nil_iff_forall_not_mem.mpr (fun e he => ?_))
    obtain ⟨hin, hp⟩ := List.mem_filter.mp he
    obtain ⟨_, hq⟩ := List.mem_filter.mp hin
    simp at hp hq
    exact hq hp
  · intro c' hc'
    have hpoint : ∀ e ∈ s.intervals,
        ((decide (e.1.1 = c') && decide (e.1.1 ≠ c)) = decide (e.1.1 = c')) := by
      intro e _
      by_cases hec : e.1.1 = c'
      · simp [hec, hc']
      · simp [hec]
    refine ⟨?_, ?_, ?_⟩
    · show (handleDisconnect s c).liveTimers.filter (fun e => e.1.1 = c')
        = s.liveTimers.filter (fun e => e.1.1 = c')
      rw [hl, ← heq, List.filter_filter]
      exact List.filter_congr hpoint
    · show (handleDisconnect s c).intervals.filter (fun e => e.1.1 = c')
        = s.intervals.filter (fun e => e.1.1 = c')
      rw [hi, List.filter_filter]
      exact List.filter_congr hpoint
    · show assocGet (assocDel s.clientSettings c) c' = assocGet s.clientSettings c'
      exact assocGet_del_ne s.clientSettings hc'
  · intro hnone hset
    show handleDisconnect s c = s
    show { s with
        liveTimers := s.liveTimers.filter (fun e =>
          ¬ ((s.intervals.filter (fun e => e.1.1 = c)).map (fun e => e.2)).contains e.2),
        intervals := s.intervals.filter (fun e => e.1.1 ≠ c),
        clientSettings := assocDel s.clientSettings c } = s
    have hfi : s.intervals.filter (fun e => e.1.1 ≠ c) = s.intervals :=
      List.filter_eq_self.mpr (fun e he => by
        simpa using List.filter_eq_nil_iff.mp hnone e he)
    have hfl : s.liveTimers.filter (fun e =>
        ¬ ((s.intervals.filter (fun e => e.1.1 = c)).map (fun e => e.2)).contains e.2)
        = s.liveTimers := by
      rw [hnone]
      exact List.filter_eq_self.mpr (fun e _ => by simp [List.contains])
    have hcs : assocDel s.clientSettings c = s.clientSettings := by
      unfold assocDel
      exact List.filter_eq_self.mpr (fun e he => by
        simpa using assocGet_eq_none_iff.mp hset e he)
    rw [hfi, hfl, hcs]

/-- Concrete instance of `c7_disconnect_cleanup`: disconnecting a subscribed
client leaves it with zero timers; disconnecting a client that never
subscribed is a complete no-op. -/
theorem c7_disconnect_cleanup_witness :
    timersOwnedBy
      (wsStep (wsStep initWS (WSOp.subBW "a" 2000 [])).1 (WSOp.disconnect "a")).1 "a" = 0 ∧
    (wsStep initWS (WSOp.disconnect "z")).1 = initWS := by
  have hg : goodState initWS := ⟨rfl, by simp [initWS], by simp [initWS], by simp [initWS]⟩
  have hg1 : goodState (wsStep initWS (WSOp.subBW "a" 2000 [])).1 :=
    goodState_wsStep initWS hg _
  exact ⟨(c7_disconnect_cleanup _ "a" hg1).1,
         (c7_disconnect_cleanup initWS "z" hg).2.2.2 rfl rfl⟩

/-! ### Registration and absence lemmas for the failure-handling claims -/

theorem assocGet_none_of_subset [DecidableEq α] {l l' : List (α × β)} {k : α}
    (hs : ∀ e ∈ l', e ∈ l) (h : assocGet l k = none) : assocGet l' k = none := by
  rw [assocGet_eq_none_iff] at h ⊢
  exact fun e he => h e (hs e he)

theorem clear_intervals_subset (s : WSState) (sid : SocketId) (ftype : FeedType) :
    ∀ e ∈ (clearClientInterval s sid ftype).intervals, e ∈ s.intervals := by
  unfold clearClientInterval
  cases assocGet s.intervals (sid, ftype) with
  | none => exact fun e he => he
  | some tid => exact fun e he => List.mem_of_mem_filter he

/-- The registration facts of a bandwidth subscription: the key is bound to
the fresh timer, whose period is the requested interval. -/
theorem handleBW_assoc (s : WSState) (sid : SocketId) (i : Nat) (fs : List String) :
    assocGet (handleBandwidthSubscription s sid i fs).1.intervals (sid, "bandwidth")
      = some s.nextTimer ∧
    assocGet (handleBandwidthSubscription s sid i fs).1.timerPeriods s.nextTimer
      = some i := by
  obtain ⟨hint, _, _, hper, _, _⟩ := handleBW_state s sid i fs
  constructor
  · rw [hint, assocGet_cons, if_pos rfl]
  · rw [hper, assocGet_cons, if_pos rfl]

/-- The registration facts of a users subscription. -/
theorem handleUsers_assoc (s : WSState) (sid : SocketId) (i : Nat) :
    assocGet (handleUsersSubscription s sid i).1.intervals (sid, "users")
      = some s.nextTimer ∧
    assocGet (handleUsersSubscription s sid i).1.timerPeriods s.nextTimer
      = some i := by
  obtain ⟨hint, _, _, hper, _, _⟩ := handleUsers_state s sid i
  constructor
  · rw [hint, assocGet_cons, if_pos rfl]
  · rw [hper, assocGet_cons, if_pos rfl]

/-- A bandwidth subscription of a different client does not bind this
client's bandwidth key. -/
theorem bw_absent_handleBW (s : WSState) (sid c : SocketId) (i : Nat)
    (fs : List String) (hsid : sid ≠ c)
    (habs : assocGet s.intervals (c, "bandwidth") = none) :
    assocGet (handleBandwidthSubscription s sid i fs).1.intervals (c, "bandwidth")
      = none := by
  obtain ⟨hint, _, _, _, _, _⟩ := handleBW_state s sid i fs
  rw [hint, assocGet_cons,
    if_neg (fun hh => hsid (congrArg Prod.fst hh))]
  exact assocGet_none_of_subset
    (fun e he => clear_intervals_subset s sid "bandwidth" e (List.mem_of_mem_filter he))
    habs

/-- A users subscription never binds a bandwidth key. -/
theorem bw_absent_handleUsers (s : WSState) (sid c : SocketId) (i : Nat)
    (habs : assocGet s.intervals (c, "bandwidth") = none) :
    assocGet (handleUsersSubscription s sid i).1.intervals (c, "bandwidth") = none := by
  obtain ⟨hint, _, _, _, _, _⟩ := handleUsers_state s sid i
  rw [hint, assocGet_cons,
    if_neg (fun hh => by
      have : ("users" : FeedType) = "bandwidth" := congrArg Prod.snd hh
      exact absurd this (by decide))]
  exact assocGet_none_of_subset
    (fun e he => clear_intervals_subset s sid "users" e (List.mem_of_mem_filter he))
    habs

/-- The operation (re)subscribes the client's bandwidth feed. -/
def resubscribesBW (c : SocketId) : WSOp → Prop
  | WSOp.subBW sid _ _ => sid = c
  | WSOp.updInterval sid t _ => sid = c ∧ t = "bandwidth"
  | _ => False

/-- While a client's bandwidth key is unbound, any operation that does not
re-subscribe it keeps it unbound and delivers no `bandwidth-data` event to
that client. -/
theorem bw_absent_step (s : WSState) (c : SocketId) (op : WSOp)
    (habs : assocGet s.intervals (c, "bandwidth") = none)
    (hnr : ¬ resubscribesBW c op) :
    assocGet (wsStep s op).1.intervals (c, "bandwidth") = none ∧
    ∀ n, WSEvent.bandwidthData c n ∉ (wsStep s op).2.1 := by
  cases op with
  | subBW sid i fs =>
      have hsid : sid ≠ c := fun hh => hnr (by simpa [resubscribesBW] using hh)
      obtain ⟨_, _, _, _, hev, _⟩ := handleBW_state s sid i fs
      exact ⟨bw_absent_handleBW s sid c i fs hsid habs, fun n h => by
        rw [show (wsStep s (WSOp.subBW sid i fs)).2.1
              = (handleBandwidthSubscription s sid i fs).2.1 from rfl, hev] at h
        simp at h⟩
  | subUsers sid i =>
      obtain ⟨_, _, _, _, hev, _⟩ := handleUsers_state s sid i
      exact ⟨bw_absent_handleUsers s sid c i habs, fun n h => by
        rw [show (wsStep s (WSOp.subUsers sid i)).2.1
              = (handleUsersSubscription s sid i).2.1 from rfl, hev] at h
        simp at h⟩
  | updInterval sid t i =>
      show assocGet (updateClientInterval s sid t i).1.intervals (c, "bandwidth") = none ∧
        ∀ n, WSEvent.bandwidthData c n ∉ (updateClientInterval s sid t i).2.1
      unfold updateClientInterval
      by_cases h1 : t = "bandwidth"
      · have hsid : sid ≠ c := fun hh => hnr (by simp [resubscribesBW, hh, h1])
        subst h1
        rw [if_pos rfl]
        obtain ⟨_, _, _, _, hev, _⟩ := handleBW_state s sid i
          (match assocGet s.clientSettings sid with
            | some p => p.2
            | none => ["ether1", "wlan1", "bridge"])
        exact ⟨bw_absent_handleBW s sid c i _ hsid habs, fun n h => by
          rw [hev] at h
          simp at h⟩
      · by_cases h2 : t = "users"
        · subst h2
          rw [if_neg h1, if_pos rfl]
          obtain ⟨_, _, _, _, hev, _⟩ := handleUsers_state s sid i
          exact ⟨bw_absent_handleUsers s sid c i habs, fun n h => by
            rw [hev] at h
            simp at h⟩
        · rw [if_neg h1, if_neg h2]
          exact ⟨habs, fun n h => by simp at h⟩
  | tickBW sid fs fetch =>
      show assocGet (wsStep s (WSOp.tickBW sid fs fetch)).1.intervals (c, "bandwidth")
          = none ∧ _
      dsimp only [wsStep]
      by_cases hsid : sid = c
      · subst hsid
        rw [habs, if_neg (by simp)]
        exact ⟨habs, fun n h => by simp at h⟩
      · by_cases hguard : (assocGet s.intervals (sid, "bandwidth")).isSome
        · simp only [hguard, if_true]
          unfold sendBandwidthData
          cases fetch with
          | ok data =>
              by_cases hd : data.length > 0
              · simp only [hd, if_true]
                exact ⟨habs, fun n h => by
                  simp at h
                  exact hsid h.1.symm⟩
              · simp only [hd, if_false]
                exact ⟨habs, fun n h => by
                  simp at h
                  exact hsid h.1.symm⟩
          | error e =>
              by_cases hcnt : s.connectionRetryAttempts < maxRetryAttempts
              · simp only [hcnt, if_true]
                exact ⟨habs, fun n h => by simp at h⟩
              · simp only [hcnt, if_false]
                refine ⟨?_, fun n h => by simp at h⟩
                exact assocGet_none_of_subset (clear_intervals_subset s sid "bandwidth") habs
        · simp only [hguard, if_false]
          exact ⟨habs, fun n h => by simp at h⟩
  | tickUsers sid ok =>
      show assocGet (wsStep s (WSOp.tickUsers sid ok)).1.intervals (c, "bandwidth")
          = none ∧ _
      dsimp only [wsStep]
      by_cases hguard : (assocGet s.intervals (sid, "users")).isSome
      · cases ok <;> simp only [hguard, if_true, if_false] <;>
          exact ⟨habs, fun n h => by simp at h⟩
      · simp only [hguard, if_false]
        exact ⟨habs, fun n h => by simp at h⟩
  | unsub sid t =>
      exact ⟨assocGet_none_of_subset (clear_intervals_subset s sid t) habs,
        fun n h => by simp [wsStep] at h⟩
  | disconnect sid =>
      refine ⟨?_, fun n h => by simp [wsStep] at h⟩
      exact assocGet_none_of_subset (fun e he => List.mem_of_mem_filter he) habs

/-- While a client's bandwidth key stays unbound (no re-subscription for it
occurs), the client receives no `bandwidth-data` event across any operation
sequence. -/
theorem no_bw_data_of_absent (s : WSState) (c : SocketId) (ops : List WSOp)
    (habs : assocGet s.intervals (c, "bandwidth") = none)
    (hnr : ∀ op ∈ ops, ¬ resubscribesBW c op) :
    ∀ n, WSEvent.bandwidthData c n ∉ (runOpsEvents s ops).2 := by
  induction ops generalizing s with
  | nil =>
      intro n
      simp [runOpsEvents]
  | cons op rest ih =>
      intro n
      obtain ⟨habs', hev⟩ := bw_absent_step s c op habs (hnr op (by simp))
      have ihh := ih (wsStep s op).1 habs' (fun o ho => hnr o (by simp [ho]))
      show WSEvent.bandwidthData c n ∉ (wsStep s op).2.1 ++ (runOpsEvents (wsStep s op).1 rest).2
      rw [List.mem_append]
      rintro (h | h)
      · exact hev n h
      · exact ihh n h

/-! ### The asynchronous callback model

The interval callback `async () => { await this.sendBandwidthData(socket,
interfaces) }` is not atomic: it begins when its timer fires (a timer
cancelled by `clearInterval` never fires again), immediately suspends at the
`await this.mikrotikService.getBandwidthUsage()` inside `sendBandwidthData`,
and the remainder of the body runs on a later event-loop turn, when that
fetch settles — `clearInterval` neither cancels a suspended callback nor
discards its result. The same is true of the un-awaited immediate
`sendBandwidthData` call made by `handleBandwidthSubscription`. The model
therefore carries a multiset of suspended bandwidth sends (each remembering
the interface list captured in its closure) and splits a bandwidth tick into
a firing step, guarded by timer liveness, and a completion step, which runs
`sendBandwidthData` against whatever state holds at settlement time. -/

/-- A `WebSocketManager` together with its suspended bandwidth sends: calls
of `sendBandwidthData` that have started (at a timer firing or at the
immediate send of a subscription) and whose fetch has not yet settled. -/
structure AsyncState where
  ws : WSState
  inFlight : List (SocketId × List String)
deriving Repr, DecidableEq

/-- The suspended sends entered by a step's deferred tasks: each un-awaited
`sendBandwidthData` scheduled by a subscription suspends at its fetch. -/
def pendingOf : List Microtask → List (SocketId × List String)
  | [] => []
  | Microtask.sendBW sid fs :: rest => (sid, fs) :: pendingOf rest

/-- Drop one occurrence of an element from a list (a multiset removal). -/
def removeOne [DecidableEq α] : List α → α → List α
  | [], _ => []
  | x :: rest, a => if x = a then rest else x :: removeOne rest a

/-- Operations of the asynchronous model: the synchronous socket-event
handlers, explicit unsubscribe and disconnect, the users tick, and the two
halves of a bandwidth interval callback — `tickStartBW` (the timer fires:
the callback begins and suspends at its fetch; a cleared timer never fires)
and `tickResolveBW` (a suspended callback's fetch settles with the given
outcome and the rest of `sendBandwidthData` runs, whatever the registry
holds by then). -/
inductive AsyncOp
  | subBW (sid : SocketId) (interval : Nat) (ifaces : List String)
  | subUsers (sid : SocketId) (interval : Nat)
  | updInterval (sid : SocketId) (dtype : String) (interval : Nat)
  | tickStartBW (sid : SocketId) (ifaces : List String)
  | tickResolveBW (sid : SocketId) (ifaces : List String)
      (fetch : Except Unit (List String))
  | tickUsers (sid : SocketId) (ok : Bool)
  | unsub (sid : SocketId) (ftype : FeedType)
  | disconnect (sid : SocketId)
deriving Repr

/-- One step of the asynchronous model. The synchronous handlers delegate to
`wsStep`, their scheduled immediate sends joining the suspended set; a
bandwidth tick fires only while its timer is live (entering a suspended
send); a completion step requires its suspended send to exist, removes it,
and applies `sendBandwidthData` unconditionally — the source has no check
that the subscription still exists when the fetch settles. -/
def asyncStep (s : AsyncState) : AsyncOp → AsyncState × List WSEvent
  | AsyncOp.subBW sid i fs =>
      let r := wsStep s.ws (WSOp.subBW sid i fs)
      (⟨r.1, pendingOf r.2.2 ++ s.inFlight⟩, r.2.1)
  | AsyncOp.subUsers sid i =>
      let r := wsStep s.ws (WSOp.subUsers sid i)
      (⟨r.1, pendingOf r.2.2 ++ s.inFlight⟩, r.2.1)
  | AsyncOp.updInterval sid t i =>
      let r := wsStep s.ws (WSOp.updInterval sid t i)
      (⟨r.1, pendingOf r.2.2 ++ s.inFlight⟩, r.2.1)
  | AsyncOp.tickStartBW sid fs =>
      if (assocGet s.ws.intervals (sid, "bandwidth")).isSome then
        (⟨s.ws, (sid, fs) :: s.inFlight⟩, [])
      else (s, [])
  | AsyncOp.tickResolveBW sid fs fetch =>
      if (sid, fs) ∈ s.inFlight then
        let r := sendBandwidthData s.ws sid fs fetch
        (⟨r.1, removeOne s.inFlight (sid, fs)⟩, r.2)
      else (s, [])
  | AsyncOp.tickUsers sid ok =>
      let r := wsStep s.ws (WSOp.tickUsers sid ok)
      (⟨r.1, pendingOf r.2.2 ++ s.inFlight⟩, r.2.1)
  | AsyncOp.unsub sid t =>
      let r := wsStep s.ws (WSOp.unsub sid t)
      (⟨r.1, pendingOf r.2.2 ++ s.inFlight⟩, r.2.1)
  | AsyncOp.disconnect sid =>
      let r := wsStep s.ws (WSOp.disconnect sid)
      (⟨r.1, pendingOf r.2.2 ++ s.inFlight⟩, r.2.1)

/-- Run a sequence of asynchronous operations, accumulating the events. -/
def runAsyncEvents (s : AsyncState) : List AsyncOp → AsyncState × List WSEvent
  | [] => (s, [])
  | op :: rest =>
      let r := asyncStep s op
      let rr := runAsyncEvents r.1 rest
      (rr.1, r.2 ++ rr.2)

/-- The operation (re)subscribes the client's bandwidth feed. -/
def resubscribesBWAsync (c : SocketId) : AsyncOp → Prop
  | AsyncOp.subBW sid _ _ => sid = c
  | AsyncOp.updInterval sid t _ => sid = c ∧ t = "bandwidth"
  | _ => False

theorem removeOne_subset [DecidableEq α] (l : List α) (a : α) :
    ∀ b ∈ removeOne l a, b ∈ l := by
  induction l with
  | nil => intro b hb; exact absurd hb (List.not_mem_nil b)
  | cons x rest ih =>
      intro b hb
      simp only [removeOne] at hb
      by_cases hx : x = a
      · rw [if_pos hx] at hb
        exact List.mem_cons_of_mem x hb
      · rw [if_neg hx] at hb
        rcases List.mem_cons.mp hb with rfl | hb2
        · exact List.mem_cons_self b rest
        · exact List.mem_cons_of_mem x (ih b hb2)

/-- A suspended send for a client enters the set only at an operation that
(re)subscribes that client's bandwidth feed. -/
theorem pending_sid (s : WSState) (o : WSOp) (c : SocketId) (fs2 : List String)
    (h : (c, fs2) ∈ pendingOf (wsStep s o).2.2) : resubscribesBW c o := by
  cases o with
  | subBW sid i fs =>
      simp [wsStep, handleBandwidthSubscription, pendingOf] at h
      show sid = c
      exact h.1.symm
  | subUsers sid i =>
      simp [wsStep, handleUsersSubscription, pendingOf] at h
  | updInterval sid t i =>
      show resubscribesBW c (WSOp.updInterval sid t i)
      by_cases h1 : t = "bandwidth"
      · subst h1
        simp [wsStep, updateClientInterval, handleBandwidthSubscription,
          pendingOf] at h
        exact ⟨h.1.symm, rfl⟩
      · by_cases h2 : t = "users"
        · subst h2
          simp [wsStep, updateClientInterval, handleUsersSubscription,
            pendingOf, h1] at h
        · simp [wsStep, updateClientInterval, pendingOf, h1, h2] at h
  | tickBW sid fs fetch =>
      by_cases hg : (assocGet s.intervals (sid, "bandwidth")).isSome
      · simp [wsStep, hg, pendingOf] at h
      · simp [wsStep, hg, pendingOf] at h
  | tickUsers sid ok =>
      by_cases hg : (assocGet s.intervals (sid, "users")).isSome
      · cases ok <;> simp [wsStep, hg, pendingOf] at h
      · simp [wsStep, hg, pendingOf] at h
  | unsub sid t => simp [wsStep, pendingOf] at h
  | disconnect sid => simp [wsStep, pendingOf] at h

/-- A completing send keeps an unbound bandwidth key unbound (the only
registry change it can make is the error path's clear). -/
theorem sendBW_absent (s : WSState) (sid c : SocketId) (fs : List String)
    (fetch : Except Unit (List String))
    (habs : assocGet s.intervals (c, "bandwidth") = none) :
    assocGet (sendBandwidthData s sid fs fetch).1.intervals (c, "bandwidth")
      = none := by
  unfold sendBandwidthData
  cases fetch with
  | ok data =>
      by_cases hd : data.length > 0
      · simp only [hd, if_true]
        exact habs
      · simp only [hd, if_false]
        exact habs
  | error e =>
      by_cases hcnt : s.connectionRetryAttempts < maxRetryAttempts
      · simp only [hcnt, if_true]
        exact habs
      · simp only [hcnt, if_false]
        exact assocGet_none_of_subset (clear_intervals_subset s sid "bandwidth") habs

/-- A completing send emits `bandwidth-data` only to the client it was
started for. -/
theorem sendBW_events_other (s : WSState) (sid c : SocketId) (fs : List String)
    (fetch : Except Unit (List String)) (hne : c ≠ sid) :
    ∀ n, WSEvent.bandwidthData c n ∉ (sendBandwidthData s sid fs fetch).2 := by
  intro n h
  unfold sendBandwidthData at h
  cases fetch with
  | ok data =>
      by_cases hd : data.length > 0
      · simp only [hd, if_true] at h
        simp at h
        exact hne h.1
      · simp only [hd, if_false] at h
        simp at h
        exact hne h.1
  | error e =>
      by_cases hcnt : s.connectionRetryAttempts < maxRetryAttempts
      · simp only [hcnt, if_true] at h
        simp at h
      · simp only [hcnt, if_false] at h
        simp at h

/-- After `clearClientInterval(sid, t)` the key `(sid, t)` is unbound. -/
theorem clear_unbinds (s : WSState) (sid : SocketId) (t : FeedType) :
    assocGet (clearClientInterval s sid t).intervals (sid, t) = none := by
  by_cases hg : (assocGet s.intervals (sid, t)).isSome
  · obtain ⟨tid, htid⟩ := Option.isSome_iff_exists.mp hg
    unfold clearClientInterval
    rw [htid]
    exact assocGet_filter_ne s.intervals (sid, t)
  · unfold clearClientInterval
    rw [Option.not_isSome_iff_eq_none.mp hg]
    exact Option.not_isSome_iff_eq_none.mp hg

/-- Absence is preserved by a delegated (synchronous) step: with the
bandwidth key unbound and nothing of the client's in flight, such a step that
does not re-subscribe the client keeps both and delivers it no data. -/
theorem bw_absent_delegate (s : AsyncState) (c : SocketId) (o : WSOp)
    (habs : assocGet s.ws.intervals (c, "bandwidth") = none)
    (hifl : ∀ fs, (c, fs) ∉ s.inFlight)
    (hnr : ¬ resubscribesBW c o) :
    assocGet (wsStep s.ws o).1.intervals (c, "bandwidth") = none ∧
    (∀ fs, (c, fs) ∉ pendingOf (wsStep s.ws o).2.2 ++ s.inFlight) ∧
    (∀ n, WSEvent.bandwidthData c n ∉ (wsStep s.ws o).2.1) := by
  obtain ⟨h1, h3⟩ := bw_absent_step s.ws c o habs hnr
  refine ⟨h1, ?_, h3⟩
  intro fs hmem
  rcases List.mem_append.mp hmem with hp | hold
  · exact hnr (pending_sid s.ws o c fs hp)
  · exact hifl fs hold

/-- While a client's bandwidth key is unbound and no send of its is
suspended, any asynchronous operation that does not re-subscribe it keeps
both properties and delivers it no `bandwidth-data`. -/
theorem bw_absent_async_step (s : AsyncState) (c : SocketId) (op : AsyncOp)
    (habs : assocGet s.ws.intervals (c, "bandwidth") = none)
    (hifl : ∀ fs, (c, fs) ∉ s.inFlight)
    (hnr : ¬ resubscribesBWAsync c op) :
    assocGet (asyncStep s op).1.ws.intervals (c, "bandwidth") = none ∧
    (∀ fs, (c, fs) ∉ (asyncStep s op).1.inFlight) ∧
    (∀ n, WSEvent.bandwidthData c n ∉ (asyncStep s op).2) := by
  cases op with
  | subBW sid i fs =>
      exact bw_absent_delegate s c (WSOp.subBW sid i fs) habs hifl hnr
  | subUsers sid i =>
      exact bw_absent_delegate s c (WSOp.subUsers sid i) habs hifl hnr
  | updInterval sid t i =>
      exact bw_absent_delegate s c (WSOp.updInterval sid t i) habs hifl hnr
  | tickStartBW sid fs =>
      dsimp only [asyncStep]
      by_cases hg : (assocGet s.ws.intervals (sid, "bandwidth")).isSome
      · rw [if_pos hg]
        refine ⟨habs, ?_, fun n hn => absurd hn (List.not_mem_nil _)⟩
        intro f3 hf3
        rcases List.mem_cons.mp hf3 with heq | hold
        · have hcs : c = sid := congrArg Prod.fst heq
          rw [← hcs, habs] at hg
          simp at hg
        · exact hifl f3 hold
      · rw [if_neg hg]
        exact ⟨habs, hifl, fun n hn => absurd hn (List.not_mem_nil _)⟩
  | tickResolveBW sid fs fetch =>
      dsimp only [asyncStep]
      by_cases hmem : (sid, fs) ∈ s.inFlight
      · have hsid : sid ≠ c := fun hh => hifl fs (hh ▸ hmem)
        rw [if_pos hmem]
        refine ⟨sendBW_absent s.ws sid c fs fetch habs, ?_, ?_⟩
        · intro f3 hf3
          exact hifl f3 (removeOne_subset s.inFlight (sid, fs) _ hf3)
        · exact fun n hn => sendBW_events_other s.ws sid c fs fetch (Ne.symm hsid) n hn
      · rw [if_neg hmem]
        exact ⟨habs, hifl, fun n hn => absurd hn (List.not_mem_nil _)⟩
  | tickUsers sid ok =>
      exact bw_absent_delegate s c (WSOp.tickUsers sid ok) habs hifl hnr
  | unsub sid t =>
      exact bw_absent_delegate s c (WSOp.unsub sid t) habs hifl hnr
  | disconnect sid =>
      exact bw_absent_delegate s c (WSOp.disconnect sid) habs hifl hnr

/-- A client whose bandwidth key is unbound and which has no suspended send
receives no `bandwidth-data` across any asynchronous operation sequence that
does not re-subscribe it. -/
theorem no_bw_data_of_absent_async (s : AsyncState) (c : SocketId)
    (ops : List AsyncOp)
    (habs : assocGet s.ws.intervals (c, "bandwidth") = none)
    (hifl : ∀ fs, (c, fs) ∉ s.inFlight)
    (hnr : ∀ op ∈ ops, ¬ resubscribesBWAsync c op) :
    ∀ n, WSEvent.bandwidthData c n ∉ (runAsyncEvents s ops).2 := by
  induction ops generalizing s with
  | nil =>
      intro n
      simp [runAsyncEvents]
  | cons op rest ih =>
      intro n
      obtain ⟨h1, h2, h3⟩ := bw_absent_async_step s c op habs hifl (hnr op (by simp))
      have ihh := ih (asyncStep s op).1 h1 h2 (fun o ho => hnr o (by simp [ho]))
      show WSEvent.bandwidthData c n
          ∉ (asyncStep s op).2 ++ (runAsyncEvents (asyncStep s op).1 rest).2
      rw [List.mem_append]
      rintro (h | h)
      · exact h3 n h
      · exact ihh n h

/-- C3 counterexample: the failure counter `connectionRetryAttempts` is a
single manager-wide field, not per client. Clients A and B both subscribe to
the bandwidth feed; five failed completions of A's callbacks (the immediate
send and four timer firings) drive the shared counter to the ceiling of 5,
each sending A a warning. The completion of B's very first send (the
immediate one made at its subscription) then finds the exhausted shared
counter: B receives an `error` event — not the warning the claim requires
while B's own rolling failure count (one) is at most the ceiling — and B's
feed is immediately auto-unsubscribed. -/
theorem c3_per_client_counter_counterexample :
    (asyncStep (runAsyncEvents (⟨initWS, []⟩ : AsyncState)
        [AsyncOp.subBW "A" 2000 [], AsyncOp.subBW "B" 2000 [],
         AsyncOp.tickResolveBW "A" [] (Except.error ()),
         AsyncOp.tickStartBW "A" [], AsyncOp.tickResolveBW "A" [] (Except.error ()),
         AsyncOp.tickStartBW "A" [], AsyncOp.tickResolveBW "A" [] (Except.error ()),
         AsyncOp.tickStartBW "A" [], AsyncOp.tickResolveBW "A" [] (Except.error ()),
         AsyncOp.tickStartBW "A" [], AsyncOp.tickResolveBW "A" [] (Except.error ())]).1
      (AsyncOp.tickResolveBW "B" [] (Except.error ()))).2
      = [WSEvent.errorEvt "B" "bandwidth"] ∧
    timersFor (asyncStep (runAsyncEvents (⟨initWS, []⟩ : AsyncState)
        [AsyncOp.subBW "A" 2000 [], AsyncOp.subBW "B" 2000 [],
         AsyncOp.tickResolveBW "A" [] (Except.error ()),
         AsyncOp.tickStartBW "A" [], AsyncOp.tickResolveBW "A" [] (Except.error ()),
         AsyncOp.tickStartBW "A" [], AsyncOp.tickResolveBW "A" [] (Except.error ()),
         AsyncOp.tickStartBW "A" [], AsyncOp.tickResolveBW "A" [] (Except.error ()),
         AsyncOp.tickStartBW "A" [], AsyncOp.tickResolveBW "A" [] (Except.error ())]).1
      (AsyncOp.tickResolveBW "B" [] (Except.error ()))).1.ws ("B", "bandwidth") = 0 := by
  decide

/-- C3 amended: the rolling failure counter is the manager-wide
`connectionRetryAttempts`, shared by all clients' bandwidth feeds and reset
to zero only by a successful delivery of non-empty data (to any client); an
interval callback is asynchronous, suspending at its fetch, and its
remainder runs when the fetch settles, whatever the registry holds by then.
A failed completion with the shared counter below 5 sends the client the
callback was started for exactly one warning, increments the counter and
leaves the registry untouched; a failed completion with the shared counter
at (or beyond) the ceiling sends exactly one error, auto-unsubscribes that
client's bandwidth feed and leaves the counter unchanged; a successful
non-empty completion delivers exactly one `bandwidth-data` event and resets
the shared counter. A client whose bandwidth key is unbound and which has no
suspended send receives no `bandwidth-data` under any operation sequence
that does not re-subscribe it (a cleared timer never fires again) — but a
send still suspended when the feed was auto-unsubscribed is neither
cancelled nor its result discarded: when its fetch settles with non-empty
data it still delivers one `bandwidth-data` event to the now-unsubscribed
client. -/
theorem c3_shared_failure_counter_amended (s : AsyncState) (c : SocketId)
    (fs : List String) :
    ((c, fs) ∈ s.inFlight →
      s.ws.connectionRetryAttempts < maxRetryAttempts →
      (asyncStep s (AsyncOp.tickResolveBW c fs (Except.error ()))).2
        = [WSEvent.warningEvt c (s.ws.connectionRetryAttempts + 1) maxRetryAttempts] ∧
      (asyncStep s (AsyncOp.tickResolveBW c fs (Except.error ()))).1.ws.connectionRetryAttempts
        = s.ws.connectionRetryAttempts + 1 ∧
      (asyncStep s (AsyncOp.tickResolveBW c fs (Except.error ()))).1.ws.intervals
        = s.ws.intervals) ∧
    ((c, fs) ∈ s.inFlight →
      maxRetryAttempts ≤ s.ws.connectionRetryAttempts →
      (asyncStep s (AsyncOp.tickResolveBW c fs (Except.error ()))).2
        = [WSEvent.errorEvt c "bandwidth"] ∧
      assocGet (asyncStep s (AsyncOp.tickResolveBW c fs (Except.error ()))).1.ws.intervals
        (c, "bandwidth") = none ∧
      (asyncStep s (AsyncOp.tickResolveBW c fs (Except.error ()))).1.ws.connectionRetryAttempts
        = s.ws.connectionRetryAttempts) ∧
    (∀ data : List String, (c, fs) ∈ s.inFlight → data.length > 0 →
      (asyncStep s (AsyncOp.tickResolveBW c fs (Except.ok data))).1.ws.connectionRetryAttempts
        = 0 ∧
      (asyncStep s (AsyncOp.tickResolveBW c fs (Except.ok data))).2
        = [WSEvent.bandwidthData c
            (if fs.length > 0 then data.filter (fun i => fs.contains i)
             else data).length]) ∧
    (∀ ops : List AsyncOp, assocGet s.ws.intervals (c, "bandwidth") = none →
      (∀ fs2, (c, fs2) ∉ s.inFlight) →
      (∀ op ∈ ops, ¬ resubscribesBWAsync c op) →
      ∀ n, WSEvent.bandwidthData c n ∉ (runAsyncEvents s ops).2) ∧
    (∀ data : List String, (c, fs) ∈ s.inFlight →
      assocGet s.ws.intervals (c, "bandwidth") = none →
      data.length > 0 →
      (asyncStep s (AsyncOp.tickResolveBW c fs (Except.ok data))).2
        = [WSEvent.bandwidthData c
            (if fs.length > 0 then data.filter (fun i => fs.contains i)
             else data).length]) := by
  refine ⟨?_, ?_, ?_, ?_, ?_⟩
  · intro hmem hcnt
    dsimp only [asyncStep]
    rw [if_pos hmem]
    dsimp only [sendBandwidthData]
    rw [if_pos hcnt]
    exact ⟨rfl, rfl, rfl⟩
  · intro hmem hcnt
    dsimp only [asyncStep]
    rw [if_pos hmem]
    dsimp only [sendBandwidthData]
    rw [if_neg (Nat.not_lt.mpr hcnt)]
    exact ⟨rfl, clear_unbinds s.ws c "bandwidth",
      (clearClientInterval_fields s.ws c "bandwidth").2.2.2⟩
  · intro data hmem hdata
    dsimp only [asyncStep]
    rw [if_pos hmem]
    dsimp only [sendBandwidthData]
    rw [if_pos hdata]
    exact ⟨rfl, rfl⟩
  · exact fun ops habs hifl hnr => no_bw_data_of_absent_async s c ops habs hifl hnr
  · intro data hmem habs hdata
    dsimp only [asyncStep]
    rw [if_pos hmem]
    dsimp only [sendBandwidthData]
    rw [if_pos hdata]

/-- Concrete instance of `c3_shared_failure_counter_amended`: a manager with
one subscribed client, one suspended send and counter 0 (warning and success
cases); the same with counter 5 (error/auto-unsubscribe case); a fresh
manager whose client B never subscribes (no-data case); and a manager whose
client A has already been auto-unsubscribed while its send is still
suspended — the completing send still delivers A a `bandwidth-data` event
(the in-flight leak). -/
theorem c3_shared_failure_counter_amended_witness :
    ((asyncStep (⟨⟨[(("A", "bandwidth"), 0)], [(("A", "bandwidth"), 0)], [(0, 2000)],
        [], 0, 1⟩, [("A", [])]⟩ : AsyncState)
      (AsyncOp.tickResolveBW "A" [] (Except.error ()))).2
      = [WSEvent.warningEvt "A" 1 5]) ∧
    ((asyncStep (⟨⟨[(("A", "bandwidth"), 0)], [(("A", "bandwidth"), 0)], [(0, 2000)],
        [], 5, 1⟩, [("A", [])]⟩ : AsyncState)
      (AsyncOp.tickResolveBW "A" [] (Except.error ()))).2
      = [WSEvent.errorEvt "A" "bandwidth"]) ∧
    (assocGet (asyncStep (⟨⟨[(("A", "bandwidth"), 0)], [(("A", "bandwidth"), 0)],
        [(0, 2000)], [], 5, 1⟩, [("A", [])]⟩ : AsyncState)
      (AsyncOp.tickResolveBW "A" [] (Except.error ()))).1.ws.intervals
      ("A", "bandwidth") = none) ∧
    ((asyncStep (⟨⟨[(("A", "bandwidth"), 0)], [(("A", "bandwidth"), 0)], [(0, 2000)],
        [], 0, 1⟩, [("A", [])]⟩ : AsyncState)
      (AsyncOp.tickResolveBW "A" [] (Except.ok ["e1"]))).1.ws.connectionRetryAttempts
      = 0) ∧
    (WSEvent.bandwidthData "B" 3
      ∉ (runAsyncEvents (⟨initWS, []⟩ : AsyncState) [AsyncOp.subBW "A" 2000 []]).2) ∧
    ((asyncStep (⟨⟨[], [], [(0, 2000)], [], 5, 1⟩, [("A", [])]⟩ : AsyncState)
      (AsyncOp.tickResolveBW "A" [] (Except.ok ["e1"]))).2
      = [WSEvent.bandwidthData "A" 1]) := by
  refine ⟨?_, ?_, ?_, ?_, ?_, ?_⟩
  · exact ((c3_shared_failure_counter_amended _ "A" []).1 (by decide) (by decide)).1
  · exact ((c3_shared_failure_counter_amended _ "A" []).2.1 (by decide) (by decide)).1
  · exact ((c3_shared_failure_counter_amended _ "A" []).2.1 (by decide) (by decide)).2.1
  · exact ((c3_shared_failure_counter_amended _ "A" []).2.2.1 ["e1"] (by decide) (by decide)).1
  · exact (c3_shared_failure_counter_amended (⟨initWS, []⟩ : AsyncState) "B" []).2.2.2.1
      [AsyncOp.subBW "A" 2000 []] rfl (fun f h => absurd h (List.not_mem_nil _))
      (by intro op hop
          simp at hop
          subst hop
          simp [resubscribesBWAsync]) 3
  · exact (c3_shared_failure_counter_amended _ "A" []).2.2.2.2 ["e1"]
      (by decide) rfl (by decide)

/-- C6 counterexample: a users-feed subscription performs no immediate
delivery: it emits nothing and schedules no deferred send — yet it does
succeed (one live timer is created for the key), so the subscriber waits a
full interval for its first data, contrary to the claim that every feed kind
delivers current data immediately on subscribe. -/
theorem c6_users_no_immediate_delivery_counterexample :
    (wsStep initWS (WSOp.subUsers "a" 5000)).2.1 = [] ∧
    (wsStep initWS (WSOp.subUsers "a" 5000)).2.2 = [] ∧
    timersFor (wsStep initWS (WSOp.subUsers "a" 5000)).1 ("a", "users") = 1 := by
  decide

/-- C6 amended: only the bandwidth feed delivers immediately: a bandwidth
subscription schedules exactly one immediate (un-awaited) `sendBandwidthData`
task — which, when its fetch succeeds with non-empty data, delivers exactly
one `bandwidth-data` event to the subscriber — in addition to registering the
periodic timer with the requested period; a users subscription only registers
its timer: it emits nothing and schedules no immediate delivery. -/
theorem c6_immediate_delivery_amended (s : WSState) (sid : SocketId) (i : Nat)
    (fs data : List String) (hne : data.length > 0) :
    (wsStep s (WSOp.subBW sid i fs)).2.1 = [] ∧
    (wsStep s (WSOp.subBW sid i fs)).2.2 = [Microtask.sendBW sid fs] ∧
    (runMicro (wsStep s (WSOp.subBW sid i fs)).1 (Microtask.sendBW sid fs)
        (Except.ok data)).2
      = [WSEvent.bandwidthData sid
          (if fs.length > 0 then data.filter (fun x => fs.contains x)
           else data).length] ∧
    assocGet (wsStep s (WSOp.subBW sid i fs)).1.intervals (sid, "bandwidth")
      = some s.nextTimer ∧
    assocGet (wsStep s (WSOp.subBW sid i fs)).1.timerPeriods s.nextTimer = some i ∧
    (wsStep s (WSOp.subUsers sid i)).2.1 = [] ∧
    (wsStep s (WSOp.subUsers sid i)).2.2 = [] := by
  obtain ⟨_, _, _, _, hev, hmt⟩ := handleBW_state s sid i fs
  obtain ⟨hget, hper⟩ := handleBW_assoc s sid i fs
  obtain ⟨_, _, _, _, huev, humt⟩ := handleUsers_state s sid i
  refine ⟨hev, hmt, ?_, hget, hper, huev, humt⟩
  show (sendBandwidthData _ sid fs (Except.ok data)).2 = _
  dsimp only [sendBandwidthData]
  rw [if_pos hne]

/-- Concrete instance of `c6_immediate_delivery_amended`. -/
theorem c6_immediate_delivery_amended_witness :
    (wsStep initWS (WSOp.subBW "a" 2000 ["ether1"])).2.1 = [] ∧
    (wsStep initWS (WSOp.subBW "a" 2000 ["ether1"])).2.2
      = [Microtask.sendBW "a" ["ether1"]] ∧
    (runMicro (wsStep initWS (WSOp.subBW "a" 2000 ["ether1"])).1
        (Microtask.sendBW "a" ["ether1"]) (Except.ok ["ether1", "wlan1"])).2
      = [WSEvent.bandwidthData "a"
          (if (["ether1"] : List String).length > 0 then
            (["ether1", "wlan1"] : List String).filter
              (fun x => (["ether1"] : List String).contains x)
           else ["ether1", "wlan1"]).length] ∧
    assocGet (wsStep initWS (WSOp.subBW "a" 2000 ["ether1"])).1.intervals
      ("a", "bandwidth") = some initWS.nextTimer ∧
    assocGet (wsStep initWS (WSOp.subBW "a" 2000 ["ether1"])).1.timerPeriods
      initWS.nextTimer = some 2000 ∧
    (wsStep initWS (WSOp.subUsers "a" 2000)).2.1 = [] ∧
    (wsStep initWS (WSOp.subUsers "a" 2000)).2.2 = [] :=
  c6_immediate_delivery_amended initWS "a" 2000 ["ether1"] ["ether1", "wlan1"]
    (by decide)

/-- C8 counterexample: no validation or clamping of the requested interval
exists. A bandwidth subscription asking for a 1 ms interval — far below the
claimed 500 ms minimum — is accepted silently: no validation error is
emitted, a live timer is registered for the key, and its period is exactly
the requested 1 ms, so the timer fires more often than the claimed minimum
allows. -/
theorem c8_no_interval_validation_counterexample :
    (wsStep initWS (WSOp.subBW "a" 1 ["ether1"])).2.1 = [] ∧
    assocGet (wsStep initWS (WSOp.subBW "a" 1 ["ether1"])).1.intervals
      ("a", "bandwidth") = some 0 ∧
    assocGet (wsStep initWS (WSOp.subBW "a" 1 ["ether1"])).1.timerPeriods 0 = some 1 ∧
    1 < 500 := by
  decide

/-- C8 amended: neither subscription path validates or clamps
`intervalMillis` — any requested value, however small, becomes the period of
the created timer and no error is emitted; the only request validation in the
manager is `update-interval`'s check of its `type` field, which rejects
unknown types synchronously with an `invalid-subscription` error and changes
no state. -/
theorem c8_interval_unvalidated_amended (s : WSState) (sid : SocketId) (i : Nat)
    (fs : List String) (t : String) (ht1 : t ≠ "bandwidth") (ht2 : t ≠ "users") :
    ((wsStep s (WSOp.subBW sid i fs)).2.1 = [] ∧
     assocGet (wsStep s (WSOp.subBW sid i fs)).1.intervals (sid, "bandwidth")
       = some s.nextTimer ∧
     assocGet (wsStep s (WSOp.subBW sid i fs)).1.timerPeriods s.nextTimer = some i) ∧
    ((wsStep s (WSOp.subUsers sid i)).2.1 = [] ∧
     assocGet (wsStep s (WSOp.subUsers sid i)).1.intervals (sid, "users")
       = some s.nextTimer ∧
     assocGet (wsStep s (WSOp.subUsers sid i)).1.timerPeriods s.nextTimer = some i) ∧
    ((wsStep s (WSOp.updInterval sid t i)).1 = s ∧
     (wsStep s (WSOp.updInterval sid t i)).2.1
       = [WSEvent.errorEvt sid "invalid-subscription"]) := by
  obtain ⟨hget, hper⟩ := handleBW_assoc s sid i fs
  obtain ⟨huget, huper⟩ := handleUsers_assoc s sid i
  obtain ⟨_, _, _, _, hev, _⟩ := handleBW_state s sid i fs
  obtain ⟨_, _, _, _, huev, _⟩ := handleUsers_state s sid i
  refine ⟨⟨hev, hget, hper⟩, ⟨huev, huget, huper⟩, ?_, ?_⟩
  · show (updateClientInterval s sid t i).1 = s
    unfold updateClientInterval
    rw [if_neg ht1, if_neg ht2]
  · show (updateClientInterval s sid t i).2.1 = _
    unfold updateClientInterval
    rw [if_neg ht1, if_neg ht2]

/-- Concrete instance of `c8_interval_unvalidated_amended`: a 1 ms bandwidth
interval and a 10 ms users interval are both accepted verbatim; an
`update-interval` with type `"x"` is rejected with an error and no state
change. -/
theorem c8_interval_unvalidated_amended_witness :
    ((wsStep initWS (WSOp.subBW "a" 1 ["ether1"])).2.1 = [] ∧
     assocGet (wsStep initWS (WSOp.subBW "a" 1 ["ether1"])).1.intervals
       ("a", "bandwidth") = some initWS.nextTimer ∧
     assocGet (wsStep initWS (WSOp.subBW "a" 1 ["ether1"])).1.timerPeriods
       initWS.nextTimer = some 1) ∧
    ((wsStep initWS (WSOp.subUsers "a" 1)).2.1 = [] ∧
     assocGet (wsStep initWS (WSOp.subUsers "a" 1)).1.intervals
       ("a", "users") = some initWS.nextTimer ∧
     assocGet (wsStep initWS (WSOp.subUsers "a" 1)).1.timerPeriods
       initWS.nextTimer = some 1) ∧
    ((wsStep initWS (WSOp.updInterval "a" "x" 1000)).1 = initWS ∧
     (wsStep initWS (WSOp.updInterval "a" "x" 1000)).2.1
       = [WSEvent.errorEvt "a" "invalid-subscription"]) :=
  c8_interval_unvalidated_amended initWS "a" 1 ["ether1"] "x" (by decide) (by decide)

/-! ## Device-state model and the control operations
    (`setSpeedLimit` / `blockUserCompletely` / `removeSpeedLimit` /
    `unblockUser` / `kickUser`, src/services/mikrotikService.js lines 309-604,
    and the `/kick-user` route of src/routes/mikrotik.js)

The RouterOS device state relevant to these operations is its firewall
address lists, firewall filter rules and simple queues. Commands are
modelled as pure transformations: `add` appends a row with a fresh `.id`
(duplicate addresses are representable; a real device may instead reject
an exact duplicate address-list entry — under either semantics the add is
not preceded by a removal), `print` filters, `remove` deletes by `.id`.
The `retryOperation` wrapper around queue commands is the identity when the
command succeeds, which is the regime these theorems describe. -/

/-- One `/ip/firewall/address-list` row. -/
structure AddrEntry where
  aid : Nat
  list : String
  address : String
  comment : String
  timeout : Option String
deriving Repr, DecidableEq

/-- One `/ip/firewall/filter` row (the fields this code writes and reads). -/
structure FilterRule where
  fid : Nat
  chain : String
  srcAddressList : String
  action : String
  comment : String
deriving Repr, DecidableEq

/-- One `/queue/simple` row (the fields this code writes and reads). -/
structure QueueRule where
  qid : Nat
  name : String
  target : String
  maxLimit : String
  comment : String
deriving Repr, DecidableEq

/-- The modelled device state, with a supply of fresh row ids. -/
structure Device where
  addrEntries : List AddrEntry
  filterRules : List FilterRule
  queues : List QueueRule
  nextId : Nat
deriving Repr, DecidableEq

/-- A device with no rows. -/
def emptyDevice : Device := ⟨[], [], [], 0⟩

/-- `/ip/firewall/address-list/add`. -/
def addrListAdd (d : Device) (list addr comment : String) (tmo : Option String) :
    Nat × Device :=
  (d.nextId,
   { d with addrEntries := d.addrEntries ++ [⟨d.nextId, list, addr, comment, tmo⟩],
            nextId := d.nextId + 1 })

/-- `/ip/firewall/address-list/print ?list= ?address=`. -/
def addrListPrint (d : Device) (list addr : String) : List AddrEntry :=
  d.addrEntries.filter (fun e => e.list = list ∧ e.address = addr)

/-- `/ip/firewall/address-list/remove =.id=`. -/
def addrListRemove (d : Device) (i : Nat) : Device :=
  { d with addrEntries := d.addrEntries.filter (fun e => e.aid ≠ i) }

/-- `/ip/firewall/filter/print ?comment=`. -/
def filterPrintByComment (d : Device) (c : String) : List FilterRule :=
  d.filterRules.filter (fun r => r.comment = c)

/-- `/ip/firewall/filter/add` of a drop rule. -/
def filterAddDrop (d : Device) (chain srcList comment : String) : Device :=
  { d with filterRules := d.filterRules ++ [⟨d.nextId, chain, srcList, "drop", comment⟩],
           nextId := d.nextId + 1 }

/-- `/queue/simple/print ?target=`. -/
def queuePrintTarget (d : Device) (t : String) : List QueueRule :=
  d.queues.filter (fun q => q.target = t)

/-- `/queue/simple/add`. -/
def queueAdd (d : Device) (name target maxLimit comment : String) : Nat × Device :=
  (d.nextId,
   { d with queues := d.queues ++ [⟨d.nextId, name, target, maxLimit, comment⟩],
            nextId := d.nextId + 1 })

/-- `/queue/simple/remove =.id=`. -/
def queueRemove (d : Device) (i : Nat) : Device :=
  { d with queues := d.queues.filter (fun q => q.qid ≠ i) }

/-- `userIp.replace(/\./g, '_')`. -/
def ipUnderscore (ip : String) : String :=
  String.mk (ip.data.map (fun c => if c = '.' then '_' else c))

/-- `target.split('/')[0]`: the part of a queue target before the first
slash. -/
def targetHead (t : String) : String :=
  String.mk (t.data.takeWhile (fun c => c ≠ '/'))

/-- `Number.prototype.toFixed(digits)` on the exact rational `num / den`
(nonnegative arguments, `den ≠ 0`; rounding half away from zero). The source
computes these on IEEE doubles; for the integer bit-rate arguments used by
this code the values coincide. -/
def jsToFixed (num den digits : Nat) : String :=
  let p := 10 ^ digits
  let scaled := (num * p * 2 + den) / (2 * den)
  if digits = 0 then toString scaled
  else
    let fs := toString (scaled % p)
    let pad := String.mk (List.replicate (digits - fs.length) '0')
    toString (scaled / p) ++ "." ++ pad ++ fs

/-- The object returned by `blockUserCompletely` (its `verification` object
flattened into the two constant booleans it holds). -/
structure BlockResult where
  success : Bool
  message : String
  isBlocked : Bool
  method : String
  ruleId : Option Nat
  userIp : String
  limitFormatted : String
  verificationFirewallBlocked : Bool
  verificationQueueLimited : Bool
deriving Repr, DecidableEq

/-- The object returned by the non-blocking path of `setSpeedLimit` (its
nested objects flattened). -/
structure LimitResult where
  success : Bool
  message : String
  applied : Bool
  limit : String
  originalRx : Nat
  originalTx : Nat
  effectiveRx : Nat
  effectiveTx : Nat
  limitFormatted : String
  userIp : String
  queueId : Option Nat
  isBlocked : Bool
  isRestricted : Bool
  verificationRules : Nat
  verificationMaxLimit : Option String
deriving Repr, DecidableEq

/-- `setSpeedLimit` returns the `blockUserCompletely` object on the (0,0)
path and its own object otherwise. -/
inductive SpeedLimitOutcome
  | blocked (r : BlockResult)
  | limited (r : LimitResult)
deriving Repr, DecidableEq

/-- The `isBlocked` field of either outcome shape. -/
def SpeedLimitOutcome.isBlockedFlag : SpeedLimitOutcome → Bool
  | SpeedLimitOutcome.blocked r => r.isBlocked
  | SpeedLimitOutcome.limited r => r.isBlocked

/-- `removeSpeedLimit`'s return object. -/
structure RemoveResult where
  success : Bool
  message : String
  rulesRemoved : Nat
  userIp : String
deriving Repr, DecidableEq

/-- `kickUser`'s return object. -/
structure KickResult where
  success : Bool
  message : String
  ruleId : Nat
deriving Repr, DecidableEq

/-- Remove every entry of one address list matching the ip (the loop body of
`unblockUser` for a single list name), returning how many were removed. -/
def removeListEntries (d : Device) (listName ip : String) : Nat × Device :=
  let entries := addrListPrint d listName ip
  (entries.length, entries.foldl (fun dd e => addrListRemove dd e.aid) d)

/-- `unblockUser(userIp)`: delete the ip from both the `api_blocked` and the
`api_speed_blocked` firewall lists, counting removals. -/
def unblockUser (d : Device) (ip : String) : Nat × Device :=
  let r1 := removeListEntries d "api_blocked" ip
  let r2 := removeListEntries r1.2 "api_speed_blocked" ip
  (r1.1 + r2.1, r2.2)

/-- `blockUserCompletely(userIp)`: ensure the `api_speed_blocked` list and
its drop rule exist, add the ip to the list (with no prior removal), then
replace any queue rules for the ip with a 1/1 bit-per-second backup queue. -/
def blockUserCompletely (d : Device) (ip : String) (now : Nat) :
    BlockResult × Device :=
  let d1 := (addrListAdd d "api_speed_blocked" "127.0.0.1" "Lista_bloqueo_velocidad"
    (some "1s")).2
  let d2 := if (filterPrintByComment d1 "bloqueo_velocidad_api").length = 0 then
      filterAddDrop d1 "forward" "api_speed_blocked" "bloqueo_velocidad_api"
    else d1
  let r3 := addrListAdd d2 "api_speed_blocked" ip "Bloqueado_por_limite_0_API" none
  let existing := queuePrintTarget r3.2 (ip ++ "/32")
  let d4 := existing.foldl (fun dd rule => queueRemove dd rule.qid) r3.2
  let queueName := "blocked_" ++ ipUnderscore ip ++ "_" ++ toString now
  let d5 := (queueAdd d4 queueName (ip ++ "/32") "1/1" ("API_BLOCKED_" ++ toString now)).2
  (⟨true, "IP " ++ ip ++ " bloqueada completamente (sin acceso a internet)",
    true, "firewall_and_queue", some r3.1, ip, "0.0 / 0.0 Mbps (Bloqueado)",
    true, true⟩, d5)

/-- `setSpeedLimit(userIp, rxLimit, txLimit)`: full firewall block when both
limits are 0; otherwise lift limits of 0 to 1 bps, clear the ip from the
block lists and from existing queue rules, add the new queue rule and re-read
it for the (non-branching) verification. -/
def setSpeedLimit (d : Device) (ip : String) (rxLimit txLimit now : Nat) :
    SpeedLimitOutcome × Device :=
  if rxLimit = 0 ∧ txLimit = 0 then
    let r := blockUserCompletely d ip now
    (SpeedLimitOutcome.blocked r.1, r.2)
  else
    let effectiveRxLimit := if rxLimit = 0 then 1 else rxLimit
    let effectiveTxLimit := if txLimit = 0 then 1 else txLimit
    let limitString := toString effectiveRxLimit ++ "/" ++ toString effectiveTxLimit
    let d1 := (unblockUser d ip).2
    let existing := queuePrintTarget d1 (ip ++ "/32")
    let d2 := existing.foldl (fun dd rule => queueRemove dd rule.qid) d1
    let queueName := "limit_" ++ ipUnderscore ip ++ "_" ++ toString now
    let r3 := queueAdd d2 queueName (ip ++ "/32") limitString
      ("API_LIMIT_" ++ toString now ++ "_RX" ++ toString rxLimit ++ "_TX"
        ++ toString txLimit)
    let verificationRules := queuePrintTarget r3.2 (ip ++ "/32")
    let applied := match verificationRules.head? with
      | some q => decide (q.maxLimit = limitString)
      | none => false
    let message := if rxLimit = 0 ∨ txLimit = 0 then
        "Límite extremo aplicado para " ++ ip ++ " ("
          ++ jsToFixed effectiveRxLimit 1000000 3 ++ "/"
          ++ jsToFixed effectiveTxLimit 1000000 3
          ++ " Mbps) - Internet prácticamente bloqueado"
      else
        "Límite establecido correctamente para " ++ ip ++ " ("
          ++ jsToFixed rxLimit 1000000 1 ++ "/" ++ jsToFixed txLimit 1000000 1
          ++ " Mbps)"
    (SpeedLimitOutcome.limited
      ⟨true, message, applied, limitString, rxLimit, txLimit,
       effectiveRxLimit, effectiveTxLimit,
       jsToFixed rxLimit 1000000 1 ++ " / " ++ jsToFixed txLimit 1000000 1 ++ " Mbps",
       ip, some r3.1, rxLimit = 0 ∧ txLimit = 0, rxLimit = 0 ∨ txLimit = 0,
       verificationRules.length,
       verificationRules.head?.map (fun q => q.maxLimit)⟩, r3.2)

/-- `removeSpeedLimit(userIp)`: clear the ip from the firewall block lists,
then delete every queue rule targeting it. -/
def removeSpeedLimit (d : Device) (ip : String) : RemoveResult × Device :=
  let d1 := (unblockUser d ip).2
  let rules := queuePrintTarget d1 (ip ++ "/32")
  let d2 := rules.foldl (fun dd rule => queueRemove dd rule.qid) d1
  (⟨true,
    "Límites removidos completamente para " ++ ip ++ " - velocidad sin restricciones",
    rules.length, ip⟩, d2)

/-- `kickUser(userIp)`: ensure the `api_blocked` list and its drop rule
exist, then add the ip with a fixed `timeout=5m`. The function declares a
single parameter; the `duration` its caller passes is dropped. -/
def kickUser (d : Device) (ip : String) : KickResult × Device :=
  let d1 := (addrListAdd d "api_blocked" "127.0.0.1" "Lista_inicial" (some "1s")).2
  let d2 := if (filterPrintByComment d1 "bloqueo_api").length = 0 then
      filterAddDrop d1 "forward" "api_blocked" "bloqueo_api"
    else d1
  let r3 := addrListAdd d2 "api_blocked" ip "Bloqueado_por_API" (some "5m")
  (⟨true, "IP " ++ ip ++ " bloqueada por 5 minutos", r3.1⟩, r3.2)

/-- The `duration` validator of the `/kick-user` route:
`body('duration').optional().isInt({ min: 60, max: 3600 })`. -/
def kickDurationValid (dur : Option Nat) : Bool :=
  match dur with
  | none => true
  | some dv => 60 ≤ dv ∧ dv ≤ 3600

/-- `POST /kick-user` (src/routes/mikrotik.js): reject invalid durations
with a 400 (`none`); otherwise default the duration to 300 and call
`mikrotikService.kickUser(ip, duration)` — whose declared signature takes
only the ip, so the duration argument is dropped at the call boundary. -/
def routeKickUser (d : Device) (ip : String) (dur : Option Nat) :
    Option (KickResult × Device) :=
  if kickDurationValid dur then some (kickUser d ip) else none

/-- The `hasSpeedLimit` field `getConnectedUsers` derives for one device
address: `speedLimits` is keyed by the part of each queue's target before the
first slash (empty keys skipped, later queues overwriting earlier ones), and
`hasLimit` holds when the surviving entry's `max-limit` is a non-empty
string.  Modelled for a single address; the display-string fields of the map
do not affect this bit. -/
def speedLimitHasLimitFor (queues : List QueueRule) (ip : String) : Bool :=
  match (queues.filter
      (fun q => targetHead q.target ≠ "" ∧ targetHead q.target = ip)).getLast? with
  | some q => q.maxLimit ≠ ""
  | none => false

/-- Id-freshness and id-distinctness of a device: every row id is below the
allocation counter and ids are unique per table. Holds for the empty device
and is preserved by all modelled commands. -/
def DeviceWf (d : Device) : Prop :=
  (∀ e ∈ d.addrEntries, e.aid < d.nextId) ∧
  (d.addrEntries.map (fun e => e.aid)).Nodup ∧
  (∀ q ∈ d.queues, q.qid < d.nextId) ∧
  (d.queues.map (fun q => q.qid)).Nodup

/-! ### Fold-removal characterizations -/

/-- Removing a list of queue rules by id is filtering the queue table. -/
theorem foldQueueRemove_eq (rs : List QueueRule) (d : Device) :
    rs.foldl (fun dd r => queueRemove dd r.qid) d
      = { d with queues := d.queues.filter (fun q => ¬ ∃ r ∈ rs, r.qid = q.qid) } := by
  induction rs generalizing d with
  | nil =>
      show d = _
      have h : d.queues.filter (fun q => ¬ ∃ r ∈ ([] : List QueueRule), r.qid = q.qid)
          = d.queues :=
        List.filter_eq_self.mpr (fun q _ => by simp)
      rw [h]
  | cons r rest ih =>
      show rest.foldl _ (queueRemove d r.qid) = _
      rw [ih]
      have hq : (queueRemove d r.qid).queues.filter (fun q => ¬ ∃ x ∈ rest, x.qid = q.qid)
          = d.queues.filter (fun q => ¬ ∃ x ∈ r :: rest, x.qid = q.qid) := by
        show (d.queues.filter (fun q => q.qid ≠ r.qid)).filter
            (fun q => ¬ ∃ x ∈ rest, x.qid = q.qid) = _
        rw [List.filter_filter]
        refine List.filter_congr (fun q _ => ?_)
        by_cases h1 : q.qid = r.qid
        · simp [h1]
        · by_cases h2 : ∃ x ∈ rest, x.qid = q.qid
          · simp [h1, h2]
          · simp [h1, Ne.symm h1, h2]
      show { d with queues :=
          ((queueRemove d r.qid).queues.filter
            (fun q => ¬ ∃ x ∈ rest, x.qid = q.qid)) } = _
      rw [hq]

/-- Removing a list of address entries by id is filtering the table. -/
theorem foldAddrRemove_eq (es : List AddrEntry) (d : Device) :
    es.foldl (fun dd e => addrListRemove dd e.aid) d
      = { d with addrEntries := d.addrEntries.filter (fun a => ¬ ∃ e ∈ es, e.aid = a.aid) } := by
  induction es generalizing d with
  | nil =>
      show d = _
      have h : d.addrEntries.filter (fun a => ¬ ∃ e ∈ ([] : List AddrEntry), e.aid = a.aid)
          = d.addrEntries :=
        List.filter_eq_self.mpr (fun a _ => by simp)
      rw [h]
  | cons e rest ih =>
      show rest.foldl _ (addrListRemove d e.aid) = _
      rw [ih]
      have ha : (addrListRemove d e.aid).addrEntries.filter
          (fun a => ¬ ∃ x ∈ rest, x.aid = a.aid)
          = d.addrEntries.filter (fun a => ¬ ∃ x ∈ e :: rest, x.aid = a.aid) := by
        show (d.addrEntries.filter (fun a => a.aid ≠ e.aid)).filter
            (fun a => ¬ ∃ x ∈ rest, x.aid = a.aid) = _
        rw [List.filter_filter]
        refine List.filter_congr (fun a _ => ?_)
        by_cases h1 : a.aid = e.aid
        · simp [h1]
        · by_cases h2 : ∃ x ∈ rest, x.aid = a.aid
          · simp [h1, h2]
          · simp [h1, Ne.symm h1, h2]
      show { d with addrEntries :=
          ((addrListRemove d e.aid).addrEntries.filter
            (fun a => ¬ ∃ x ∈ rest, x.aid = a.aid)) } = _
      rw [ha]

/-- When ids are distinct, removing exactly the rows printed by a predicate
filters by that predicate. -/
theorem filter_not_exists_eq (l : List α) (f : α → Nat) (p : α → Prop)
    [DecidablePred p] (hnd : (l.map f).Nodup) :
    l.filter (fun a => ¬ ∃ b ∈ l.filter (fun x => p x), f b = f a)
      = l.filter (fun a => ¬ p a) := by
  refine List.filter_congr (fun a ha => ?_)
  apply decide_eq_decide.mpr
  apply not_congr
  constructor
  · rintro ⟨b, hb, hfb⟩
    have hba : b = a := List.inj_on_of_nodup_map hnd (List.mem_of_mem_filter hb) ha hfb
    have hp := (List.mem_filter.mp hb).2
    rw [hba] at hp
    simpa using hp
  · intro hpa
    exact ⟨a, List.mem_filter.mpr ⟨ha, by simpa using hpa⟩, rfl⟩

/-- After removing every queue rule printed for a target, no rule for that
target remains. -/
theorem removeAllTarget_empty (d : Device) (t : String) :
    queuePrintTarget ((queuePrintTarget d t).foldl
      (fun dd r => queueRemove dd r.qid) d) t = [] := by
  rw [foldQueueRemove_eq]
  show (d.queues.filter (fun q => ¬ ∃ r ∈ queuePrintTarget d t, r.qid = q.qid)).filter
      (fun q => q.target = t) = []
  refine List.eq_nil_iff_forall_not_mem.mpr (fun q hq => ?_)
  obtain ⟨hin, htgt⟩ := List.mem_filter.mp hq
  obtain ⟨hmem, hnot⟩ := List.mem_filter.mp hin
  simp only [decide_eq_true_eq] at htgt hnot
  exact hnot ⟨q, List.mem_filter.mpr ⟨hmem, decide_eq_true htgt⟩, rfl⟩

/-- Clearing a target's queue rules and adding one leaves exactly that one
rule for the target. -/
theorem removeThenAdd_print (d : Device) (t name ml cm : String) :
    queuePrintTarget
      (queueAdd ((queuePrintTarget d t).foldl (fun dd r => queueRemove dd r.qid) d)
        name t ml cm).2 t
      = [⟨((queuePrintTarget d t).foldl (fun dd r => queueRemove dd r.qid) d).nextId,
          name, t, ml, cm⟩] := by
  show ((((queuePrintTarget d t).foldl (fun dd r => queueRemove dd r.qid) d).queues)
      ++ ([⟨((queuePrintTarget d t).foldl (fun dd r => queueRemove dd r.qid) d).nextId,
          name, t, ml, cm⟩] : List QueueRule)).filter (fun q => q.target = t) = _
  rw [List.filter_append]
  have h1 : (((queuePrintTarget d t).foldl (fun dd r => queueRemove dd r.qid) d).queues).filter
      (fun q => q.target = t) = [] := removeAllTarget_empty d t
  rw [h1]
  simp

/-- `removeListEntries` on a table with distinct ids filters out exactly the
entries of the named list with the given address. -/
theorem removeListEntries_eq (d : Device)
    (hnd : (d.addrEntries.map (fun e => e.aid)).Nodup) (listName ip : String) :
    (removeListEntries d listName ip).2
      = { d with addrEntries :=
            (d.addrEntries.filter
              (fun e => ¬ (e.list = listName ∧ e.address = ip))) } := by
  show (addrListPrint d listName ip).foldl (fun dd e => addrListRemove dd e.aid) d = _
  rw [foldAddrRemove_eq]
  congr 1
  exact filter_not_exists_eq d.addrEntries (fun e => e.aid)
    (fun e => e.list = listName ∧ e.address = ip) hnd

/-! ### Characterizations of the block / unblock pipeline -/

/-- `removeListEntries` touches only the address table. -/
theorem removeListEntries_fields (d : Device) (l ip : String) :
    (removeListEntries d l ip).2.queues = d.queues ∧
    (removeListEntries d l ip).2.filterRules = d.filterRules ∧
    (removeListEntries d l ip).2.nextId = d.nextId := by
  show ((addrListPrint d l ip).foldl (fun dd e => addrListRemove dd e.aid) d).queues
        = d.queues
      ∧ ((addrListPrint d l ip).foldl (fun dd e => addrListRemove dd e.aid) d).filterRules
        = d.filterRules
      ∧ ((addrListPrint d l ip).foldl (fun dd e => addrListRemove dd e.aid) d).nextId
        = d.nextId
  rw [foldAddrRemove_eq]
  exact ⟨rfl, rfl, rfl⟩

/-- `removeListEntries` only removes address entries. -/
theorem removeListEntries_subset (d : Device) (l ip : String) :
    ∀ e ∈ (removeListEntries d l ip).2.addrEntries, e ∈ d.addrEntries := by
  intro e he
  have : (removeListEntries d l ip).2.addrEntries
      = d.addrEntries.filter
          (fun a => ¬ ∃ x ∈ addrListPrint d l ip, x.aid = a.aid) := by
    show ((addrListPrint d l ip).foldl (fun dd x => addrListRemove dd x.aid) d).addrEntries
        = _
    rw [foldAddrRemove_eq]
  rw [this] at he
  exact List.mem_of_mem_filter he

/-- `unblockUser` touches only the address table. -/
theorem unblockUser_fields (d : Device) (ip : String) :
    (unblockUser d ip).2.queues = d.queues ∧
    (unblockUser d ip).2.filterRules = d.filterRules ∧
    (unblockUser d ip).2.nextId = d.nextId := by
  show (removeListEntries (removeListEntries d "api_blocked" ip).2
      "api_speed_blocked" ip).2.queues = d.queues ∧ _
  obtain ⟨h1q, h1f, h1n⟩ := removeListEntries_fields d "api_blocked" ip
  obtain ⟨h2q, h2f, h2n⟩ :=
    removeListEntries_fields (removeListEntries d "api_blocked" ip).2 "api_speed_blocked" ip
  exact ⟨h2q.trans h1q, h2f.trans h1f, h2n.trans h1n⟩

/-- `unblockUser` only removes address entries. -/
theorem unblockUser_subset (d : Device) (ip : String) :
    ∀ e ∈ (unblockUser d ip).2.addrEntries, e ∈ d.addrEntries := by
  intro e he
  exact removeListEntries_subset d "api_blocked" ip e
    (removeListEntries_subset (removeListEntries d "api_blocked" ip).2
      "api_speed_blocked" ip e he)

/-- On a table with distinct ids, `unblockUser` filters out exactly the ip's
entries of the two block lists. -/
theorem unblockUser_eq (d : Device)
    (hnd : (d.addrEntries.map (fun e => e.aid)).Nodup) (ip : String) :
    (unblockUser d ip).2.addrEntries
      = (d.addrEntries.filter
          (fun e => ¬ (e.list = "api_blocked" ∧ e.address = ip))).filter
        (fun e => ¬ (e.list = "api_speed_blocked" ∧ e.address = ip)) := by
  show (removeListEntries (removeListEntries d "api_blocked" ip).2
      "api_speed_blocked" ip).2.addrEntries = _
  rw [removeListEntries_eq d hnd "api_blocked" ip]
  have hnd2 : (((d.addrEntries.filter
      (fun e => ¬ (e.list = "api_blocked" ∧ e.address = ip)))).map
        (fun e => e.aid)).Nodup :=
    hnd.sublist ((List.filter_sublist _).map _)
  rw [removeListEntries_eq _ hnd2 "api_speed_blocked" ip]

/-- The address table after `blockUserCompletely`: the bootstrap entry and
the ip entry are appended to the untouched prior table (in particular no
existing entry for the ip is removed first). -/
theorem blockUser_addr (d : Device) (ip : String) (now : Nat) :
    ∃ i2, d.nextId < i2 ∧
      (blockUserCompletely d ip now).2.addrEntries
        = d.addrEntries
          ++ [⟨d.nextId, "api_speed_blocked", "127.0.0.1", "Lista_bloqueo_velocidad",
               some "1s"⟩,
              ⟨i2, "api_speed_blocked", ip, "Bloqueado_por_limite_0_API", none⟩] := by
  simp only [blockUserCompletely]
  split
  · refine ⟨d.nextId + 2, by omega, ?_⟩
    rw [foldQueueRemove_eq]
    simp [addrListAdd, filterAddDrop, queueAdd]
  · refine ⟨d.nextId + 1, by omega, ?_⟩
    rw [foldQueueRemove_eq]
    simp [addrListAdd, queueAdd]

/-- After `blockUserCompletely` on a well-formed device, address ids are
still distinct. -/
theorem blockUser_addr_nodup (d : Device) (hwf : DeviceWf d) (ip : String) (now : Nat) :
    ((blockUserCompletely d ip now).2.addrEntries.map (fun e => e.aid)).Nodup := by
  obtain ⟨i2, hlt, heq⟩ := blockUser_addr d ip now
  rw [heq, List.map_append, List.nodup_append]
  refine ⟨hwf.2.1, ?_, ?_⟩
  · simp
    omega
  · intro a ha hb
    obtain ⟨e, he, rfl⟩ := List.mem_map.mp ha
    have := hwf.1 e he
    simp at hb
    rcases hb with hb | hb <;> omega

/-- The queue table after `blockUserCompletely` ends with the fresh 1/1
backup rule. -/
theorem blockUser_queues (d : Device) (ip : String) (now : Nat) :
    ∃ qi cleaned,
      (blockUserCompletely d ip now).2.queues = cleaned
        ++ [⟨qi, "blocked_" ++ ipUnderscore ip ++ "_" ++ toString now, ip ++ "/32",
             "1/1", "API_BLOCKED_" ++ toString now⟩] := by
  simp only [blockUserCompletely]
  split <;>
    exact ⟨_, _, rfl⟩

/-- Exactly one queue rule targets the ip after `blockUserCompletely`: the
fresh 1/1 backup rule. -/
theorem blockUser_qprint (d : Device) (ip : String) (now : Nat) :
    ∃ qi, queuePrintTarget (blockUserCompletely d ip now).2 (ip ++ "/32")
      = [⟨qi, "blocked_" ++ ipUnderscore ip ++ "_" ++ toString now, ip ++ "/32",
          "1/1", "API_BLOCKED_" ++ toString now⟩] := by
  simp only [blockUserCompletely]
  split <;>
    exact ⟨_, removeThenAdd_print _ (ip ++ "/32") _ _ _⟩

/-- The drop rule for the speed-block list exists after
`blockUserCompletely`. -/
theorem blockUser_filters (d : Device) (ip : String) (now : Nat) :
    filterPrintByComment (blockUserCompletely d ip now).2 "bloqueo_velocidad_api" ≠ [] := by
  simp only [blockUserCompletely]
  split
  case isTrue hf =>
      rw [foldQueueRemove_eq]
      show List.filter _ (_ ++ _) ≠ []
      rw [List.filter_append]
      intro hh
      rcases List.append_eq_nil.mp hh with ⟨_, h2⟩
      simp at h2
  case isFalse hf =>
      rw [foldQueueRemove_eq]
      show filterPrintByComment
        (addrListAdd d "api_speed_blocked" "127.0.0.1" "Lista_bloqueo_velocidad"
          (some "1s")).2 "bloqueo_velocidad_api" ≠ []
      intro hh
      exact hf (by rw [hh]; rfl)

/-- Folding queue removals leaves the address table alone. -/
theorem foldQueueRemove_addr (rs : List QueueRule) (d : Device) :
    (rs.foldl (fun dd r => queueRemove dd r.qid) d).addrEntries = d.addrEntries := by
  rw [foldQueueRemove_eq]

/-- A queue table ending in a rule whose target resolves to the ip and whose
`max-limit` is non-empty makes `getConnectedUsers` report a speed limit for
the ip. -/
theorem speedLimit_after_append (qs : List QueueRule) (bq : QueueRule) (ip : String)
    (hh : targetHead bq.target = ip) (hip0 : ip ≠ "") (hml : bq.maxLimit ≠ "") :
    speedLimitHasLimitFor (qs ++ [bq]) ip = true := by
  unfold speedLimitHasLimitFor
  rw [List.filter_append]
  have h1 : (([bq] : List QueueRule)).filter
      (fun q => targetHead q.target ≠ "" ∧ targetHead q.target = ip) = [bq] := by
    simp [hh, hip0]
  rw [h1, List.getLast?_concat]
  simpa using hml

/-- The non-blocking path of `setSpeedLimit`: the address table is exactly
the unblocked one, and exactly one queue rule (the fresh limit) targets the
ip afterwards. -/
theorem setSpeed_nonzero (d : Device) (ip : String) (rx tx now : Nat)
    (h : ¬ (rx = 0 ∧ tx = 0)) :
    (setSpeedLimit d ip rx tx now).2.addrEntries = (unblockUser d ip).2.addrEntries ∧
    queuePrintTarget (setSpeedLimit d ip rx tx now).2 (ip ++ "/32")
      = [⟨((queuePrintTarget (unblockUser d ip).2 (ip ++ "/32")).foldl
            (fun dd r => queueRemove dd r.qid) (unblockUser d ip).2).nextId,
          "limit_" ++ ipUnderscore ip ++ "_" ++ toString now, ip ++ "/32",
          toString (if rx = 0 then 1 else rx) ++ "/"
            ++ toString (if tx = 0 then 1 else tx),
          "API_LIMIT_" ++ toString now ++ "_RX" ++ toString rx ++ "_TX"
            ++ toString tx⟩] := by
  simp only [setSpeedLimit]
  rw [if_neg h]
  constructor
  · rw [foldQueueRemove_eq]
    rfl
  · exact removeThenAdd_print (unblockUser d ip).2 (ip ++ "/32") _ _ _

/-- C9 counterexample: a retried `setSpeedLimit(ip, 0, 0)` does not converge
to the same end state, because the blocking path adds the ip to the
`api_speed_blocked` firewall list without first clearing the prior entry:
after the first call the list holds one entry for the ip, after the retried
call it holds two (on a device rejecting exact duplicates the retried add
would instead fail — under neither semantics does the retry reach the same
end state by clear-then-add). -/
theorem c9_retry_not_converge_counterexample :
    (addrListPrint (setSpeedLimit emptyDevice "192.168.1.50" 0 0 1000).2
        "api_speed_blocked" "192.168.1.50").length = 1 ∧
    (addrListPrint (setSpeedLimit (setSpeedLimit emptyDevice "192.168.1.50" 0 0 1000).2
        "192.168.1.50" 0 0 2000).2 "api_speed_blocked" "192.168.1.50").length = 2 := by
  decide

/-- C9 amended: on a well-formed device with no prior entry for the ip:
`setSpeedLimit(ip, 0, 0)` reports a blocked state and leaves the ip on the
`api_speed_blocked` list (exactly once), covered by the drop rule, with
exactly one queue rule for the ip whose limit is `1/1` — so the connected-user
snapshot reports a speed limit for the ip; a subsequent `removeSpeedLimit`
removes every trace (no address-list entry and no queue rule referencing the
ip remains). A retried `setSpeedLimit` with limits other than (0,0) converges:
it first clears the prior rules and re-adds, so the queue state for the ip is
the same single rule with the same limit after one call or two, and the block
lists stay clear of the ip. (For the (0,0) path the retried call does not
clear the prior firewall entry first: see the counterexample.) -/
theorem c9_rate_limit_roundtrip_amended (d : Device) (ip : String) (now now2 : Nat)
    (hwf : DeviceWf d)
    (hclean : ∀ e ∈ d.addrEntries, e.address ≠ ip)
    (hip : ip ≠ "127.0.0.1")
    (hip0 : ip ≠ "")
    (hhead : targetHead (ip ++ "/32") = ip) :
    ((setSpeedLimit d ip 0 0 now).1.isBlockedFlag = true) ∧
    ((addrListPrint (setSpeedLimit d ip 0 0 now).2 "api_speed_blocked" ip).length = 1) ∧
    ((queuePrintTarget (setSpeedLimit d ip 0 0 now).2 (ip ++ "/32")).map
        (fun q => q.maxLimit) = ["1/1"]) ∧
    (speedLimitHasLimitFor (setSpeedLimit d ip 0 0 now).2.queues ip = true) ∧
    (filterPrintByComment (setSpeedLimit d ip 0 0 now).2 "bloqueo_velocidad_api" ≠ []) ∧
    (∀ e ∈ (removeSpeedLimit (setSpeedLimit d ip 0 0 now).2 ip).2.addrEntries,
        e.address ≠ ip) ∧
    (queuePrintTarget (removeSpeedLimit (setSpeedLimit d ip 0 0 now).2 ip).2
        (ip ++ "/32") = []) ∧
    (∀ rx tx : Nat, ¬ (rx = 0 ∧ tx = 0) →
      ((queuePrintTarget (setSpeedLimit d ip rx tx now).2 (ip ++ "/32")).map
          (fun q => q.maxLimit)
        = [toString (if rx = 0 then 1 else rx) ++ "/"
            ++ toString (if tx = 0 then 1 else tx)]) ∧
      ((queuePrintTarget (setSpeedLimit (setSpeedLimit d ip rx tx now).2 ip rx tx
          now2).2 (ip ++ "/32")).map (fun q => q.maxLimit)
        = [toString (if rx = 0 then 1 else rx) ++ "/"
            ++ toString (if tx = 0 then 1 else tx)]) ∧
      (∀ e ∈ (setSpeedLimit (setSpeedLimit d ip rx tx now).2 ip rx tx
          now2).2.addrEntries, e.address ≠ ip)) := by
  have hz : setSpeedLimit d ip 0 0 now
      = (SpeedLimitOutcome.blocked (blockUserCompletely d ip now).1,
         (blockUserCompletely d ip now).2) := by
    simp only [setSpeedLimit]
    rw [if_pos (by simp)]
  obtain ⟨i2, hlt, heq⟩ := blockUser_addr d ip now
  refine ⟨?_, ?_, ?_, ?_, ?_, ?_, ?_, ?_⟩
  · rw [hz]
    rfl
  · rw [hz]
    show (addrListPrint (blockUserCompletely d ip now).2 "api_speed_blocked" ip).length = 1
    unfold addrListPrint
    rw [heq, List.filter_append]
    have h1 : d.addrEntries.filter
        (fun e => e.list = "api_speed_blocked" ∧ e.address = ip) = [] :=
      List.filter_eq_nil_iff.mpr (fun e he => by simp [hclean e he])
    rw [h1]
    simp [Ne.symm hip]
  · rw [hz]
    obtain ⟨qi, hq⟩ := blockUser_qprint d ip now
    show (queuePrintTarget (blockUserCompletely d ip now).2 (ip ++ "/32")).map
        (fun q => q.maxLimit) = ["1/1"]
    rw [hq]
    rfl
  · rw [hz]
    obtain ⟨qi, cleaned, hq⟩ := blockUser_queues d ip now
    show speedLimitHasLimitFor (blockUserCompletely d ip now).2.queues ip = true
    rw [hq]
    exact speedLimit_after_append cleaned _ ip hhead hip0
      (show ("1/1" : String) ≠ "" by decide)
  · rw [hz]
    exact blockUser_filters d ip now
  · rw [hz]
    intro e he
    have hnd2 := blockUser_addr_nodup d hwf ip now
    have haddr : (removeSpeedLimit (blockUserCompletely d ip now).2 ip).2.addrEntries
        = (unblockUser (blockUserCompletely d ip now).2 ip).2.addrEntries :=
      foldQueueRemove_addr _ _
    rw [haddr, unblockUser_eq _ hnd2 ip] at he
    obtain ⟨hin, hp2⟩ := List.mem_filter.mp he
    obtain ⟨hbase, hp1⟩ := List.mem_filter.mp hin
    rw [heq] at hbase
    simp only [decide_eq_true_eq] at hp1 hp2
    rcases List.mem_append.mp hbase with hd | hnew
    · exact hclean e hd
    · simp at hnew
      rcases hnew with rfl | rfl
      · show "127.0.0.1" ≠ ip
        exact Ne.symm hip
      · exact absurd ⟨rfl, rfl⟩ hp2
  · rw [hz]
    exact removeAllTarget_empty (unblockUser (blockUserCompletely d ip now).2 ip).2
      (ip ++ "/32")
  · intro rx tx hnz
    obtain ⟨h1a, h1q⟩ := setSpeed_nonzero d ip rx tx now hnz
    obtain ⟨h2a, h2q⟩ := setSpeed_nonzero (setSpeedLimit d ip rx tx now).2 ip rx tx
      now2 hnz
    refine ⟨?_, ?_, ?_⟩
    · rw [h1q]
      rfl
    · rw [h2q]
      rfl
    · intro e he
      rw [h2a] at he
      have he1 : e ∈ (setSpeedLimit d ip rx tx now).2.addrEntries :=
        unblockUser_subset (setSpeedLimit d ip rx tx now).2 ip e he
      rw [h1a] at he1
      exact hclean e (unblockUser_subset d ip e he1)

/-- Concrete instance of `c9_rate_limit_roundtrip_amended`: the empty device
and ip 192.168.1.50. -/
theorem c9_rate_limit_roundtrip_amended_witness :
    ((setSpeedLimit emptyDevice "192.168.1.50" 0 0 1000).1.isBlockedFlag = true) ∧
    ((addrListPrint (setSpeedLimit emptyDevice "192.168.1.50" 0 0 1000).2
        "api_speed_blocked" "192.168.1.50").length = 1) ∧
    (speedLimitHasLimitFor (setSpeedLimit emptyDevice "192.168.1.50" 0 0 1000).2.queues
        "192.168.1.50" = true) ∧
    (∀ e ∈ (removeSpeedLimit (setSpeedLimit emptyDevice "192.168.1.50" 0 0 1000).2
        "192.168.1.50").2.addrEntries, e.address ≠ "192.168.1.50") ∧
    (queuePrintTarget (removeSpeedLimit
        (setSpeedLimit emptyDevice "192.168.1.50" 0 0 1000).2 "192.168.1.50").2
        ("192.168.1.50" ++ "/32") = []) ∧
    ((queuePrintTarget (setSpeedLimit emptyDevice "192.168.1.50" 2000000 1000000 1000).2
        ("192.168.1.50" ++ "/32")).map (fun q => q.maxLimit)
      = [toString (if 2000000 = 0 then 1 else 2000000) ++ "/"
          ++ toString (if 1000000 = 0 then 1 else 1000000)]) := by
  have h := c9_rate_limit_roundtrip_amended emptyDevice "192.168.1.50" 1000 2000
    (by refine ⟨?_, ?_, ?_, ?_⟩ <;> simp [emptyDevice])
    (by intro e he; simp [emptyDevice] at he)
    (by decide) (by decide) (by decide)
  exact ⟨h.1, h.2.1, h.2.2.2.1, h.2.2.2.2.2.1, h.2.2.2.2.2.2.1,
    (h.2.2.2.2.2.2.2 2000000 1000000 (by simp)).1⟩

/-- C10: for every duration the `/kick-user` endpoint accepts (any integer
between 60 and 3600 seconds), the route defaults or forwards the duration to
`kickUser`, whose declared signature takes only the ip — the duration never
influences device state: the call produces the same result as any other
accepted duration, writes the firewall `api_blocked` entry with the fixed
`timeout=5m`, and reports a fixed 5-minute block in its success message. -/
theorem c10_kick_fixed_duration (d : Device) (ip : String) (dv : Nat)
    (h60 : 60 ≤ dv) (h36 : dv ≤ 3600) :
    routeKickUser d ip (some dv) = some (kickUser d ip) ∧
    routeKickUser d ip (some dv) = routeKickUser d ip (some 300) ∧
    (kickUser d ip).1.message = "IP " ++ ip ++ " bloqueada por 5 minutos" ∧
    (∃ i, (kickUser d ip).2.addrEntries.getLast?
      = some ⟨i, "api_blocked", ip, "Bloqueado_por_API", some "5m"⟩) := by
  have hv : kickDurationValid (some dv) = true := by
    simp [kickDurationValid, h60, h36]
  refine ⟨?_, ?_, rfl, ?_⟩
  · unfold routeKickUser
    rw [if_pos hv]
  · unfold routeKickUser
    rw [if_pos hv, if_pos (by simp [kickDurationValid])]
  · simp only [kickUser]
    split <;> exact ⟨_, List.getLast?_concat _⟩

/-- Concrete instance of `c10_kick_fixed_duration`: durations 600 and 3600
produce identical calls, and the entry written carries `timeout=5m`. -/
theorem c10_kick_fixed_duration_witness :
    routeKickUser emptyDevice "10.0.0.9" (some 600)
      = some (kickUser emptyDevice "10.0.0.9") ∧
    routeKickUser emptyDevice "10.0.0.9" (some 600)
      = routeKickUser emptyDevice "10.0.0.9" (some 300) ∧
    (kickUser emptyDevice "10.0.0.9").1.message
      = "IP 10.0.0.9 bloqueada por 5 minutos" := by
  have h := c10_kick_fixed_duration emptyDevice "10.0.0.9" 600 (by decide) (by decide)
  exact ⟨h.1, h.2.1, h.2.2.1.trans (by decide)⟩

end HAPLite
